import Mathlib

/-!
Verification of the `publicador-rrss` repository.

The development shallowly embeds the parts of the code that the claims
touch: the Microsoft Graph mail module (`src/graph_mail.py`), the
LinkedIn API client (`src/linkedin.py`), the e-mail cleaning utility
(`src/utils.py`) and the auto-analytics reconciliation loop
(`scripts/auto_analytics.py`).  Python strings are modelled as
`List Char` where character-level operations matter and as `String`
where they are opaque identifiers; machine floats that only carry
exact decimal arithmetic are modelled as `ℚ`; HTTP and database
effects are passed in explicitly as oracles.
-/

namespace PublicadorRRSS

/-! ### Character-level string helpers (Python `in`, `str.count`, `re` on ASCII) -/

/-- Lower-casing of one character: Python's `str.lower` restricted to the
ASCII letters `A`-`Z` and the Latin-1 uppercase letters `À`-`Þ` (excluding
the non-letter `×`), each mapped to its code point plus 32 as Python does.
This repertoire contains every cased character the repository admits in
emails (`utils.validar_contacto` accepts `ñÑáéíóúÁÉÍÓÚ` besides ASCII); all
other characters are left fixed. -/
def lowerChar (c : Char) : Char :=
  if c = 'A' then 'a' else if c = 'B' then 'b' else if c = 'C' then 'c'
  else if c = 'D' then 'd' else if c = 'E' then 'e' else if c = 'F' then 'f'
  else if c = 'G' then 'g' else if c = 'H' then 'h' else if c = 'I' then 'i'
  else if c = 'J' then 'j' else if c = 'K' then 'k' else if c = 'L' then 'l'
  else if c = 'M' then 'm' else if c = 'N' then 'n' else if c = 'O' then 'o'
  else if c = 'P' then 'p' else if c = 'Q' then 'q' else if c = 'R' then 'r'
  else if c = 'S' then 's' else if c = 'T' then 't' else if c = 'U' then 'u'
  else if c = 'V' then 'v' else if c = 'W' then 'w' else if c = 'X' then 'x'
  else if c = 'Y' then 'y' else if c = 'Z' then 'z' else if c = 'À' then 'à'
  else if c = 'Á' then 'á' else if c = 'Â' then 'â' else if c = 'Ã' then 'ã'
  else if c = 'Ä' then 'ä' else if c = 'Å' then 'å' else if c = 'Æ' then 'æ'
  else if c = 'Ç' then 'ç' else if c = 'È' then 'è' else if c = 'É' then 'é'
  else if c = 'Ê' then 'ê' else if c = 'Ë' then 'ë' else if c = 'Ì' then 'ì'
  else if c = 'Í' then 'í' else if c = 'Î' then 'î' else if c = 'Ï' then 'ï'
  else if c = 'Ð' then 'ð' else if c = 'Ñ' then 'ñ' else if c = 'Ò' then 'ò'
  else if c = 'Ó' then 'ó' else if c = 'Ô' then 'ô' else if c = 'Õ' then 'õ'
  else if c = 'Ö' then 'ö' else if c = 'Ø' then 'ø' else if c = 'Ù' then 'ù'
  else if c = 'Ú' then 'ú' else if c = 'Û' then 'û' else if c = 'Ü' then 'ü'
  else if c = 'Ý' then 'ý' else if c = 'Þ' then 'þ' else c

/-- Python's `pat in s` substring test. -/
def containsSub (pat : List Char) : List Char → Bool
  | [] => pat.isEmpty
  | c :: rest => pat.isPrefixOf (c :: rest) || containsSub pat rest

/-- Number of positions of `s` at which `pat` occurs (for the
non-self-overlapping patterns used here this is Python's `s.count(pat)`). -/
def countSub (pat : List Char) : List Char → Nat
  | [] => 0
  | c :: rest => (if pat.isPrefixOf (c :: rest) then 1 else 0) + countSub pat rest

/-- Case-insensitive prefix test, modelling a `re.IGNORECASE` literal match. -/
def ciIsPrefixOf : List Char → List Char → Bool
  | [], _ => true
  | _ :: _, [] => false
  | p :: ps, c :: cs => (lowerChar p = lowerChar c) && ciIsPrefixOf ps cs

/-- Case-insensitive substring search, modelling `re.search` of a literal. -/
def ciSearch (pat : List Char) : List Char → Bool
  | [] => pat.isEmpty
  | c :: rest => ciIsPrefixOf pat (c :: rest) || ciSearch pat rest

/-- `re.sub(r"(</body>)", ins + \1, s, count=1, flags=IGNORECASE)`:
insert `ins` just before the first case-insensitive occurrence of the
pattern; when the pattern does not occur, return `s` unchanged. -/
def insertBeforeCi (pat ins : List Char) : List Char → List Char
  | [] => []
  | c :: rest =>
    if ciIsPrefixOf pat (c :: rest) then ins ++ c :: rest
    else c :: insertBeforeCi pat ins rest

/-- Python's `s.replace(pat, repl, 1)`: replace the first occurrence. -/
def replaceFirst (pat repl : List Char) : List Char → List Char
  | [] => []
  | c :: rest =>
    if pat.isPrefixOf (c :: rest) then repl ++ (c :: rest).drop pat.length
    else c :: replaceFirst pat repl rest

/-! ### `src/graph_mail.py`: footer constants and HTML assembly -/

def FOOTER_MARKER_TEXT : String := "PIES-DE-EMAIL"

def FOOTER_MARKER_HTML : String := "<!-- PIES-DE-EMAIL -->"

/-- The lines of the `EMAIL_FOOTER` triple-quoted literal
(graph_mail.py lines 42-88), without the empty first and last line that
the triple quotes contribute. -/
def EMAIL_FOOTER_INNER : List String :=
  ["<br><br>",
   "<!-- PIES-DE-EMAIL -->",
   "<table",
   r#"  width="50%""#,
   r#"  cellpadding="0""#,
   r#"  cellspacing="0""#,
   r#"  border="0""#,
   r#"  align="left""#,
   r#"  style="font-family: Arial, sans-serif; font-size:14px; color:#4F764D; background-color:#fafafa;""#,
   ">",
   "  <tr>",
   r#"    <td style="padding:15px; vertical-align:top; width:60%;">"#,
   r#"      <strong style="font-size:18px; color:#234926;">Tu Nombre</strong><br>"#,
   r#"      <span style="color:#4F764D;">Tu Cargo</span><br>"#,
   r#"      <a href="mailto:tu-email@ejemplo.com" style="color:#4F764D; text-decoration:none;">tu-email@ejemplo.com</a><br>"#,
   r#"      <a href="https://linkedin.com/in/tu-perfil" style="color:#4F764D; text-decoration:none;">linkedin.com/in/tu-perfil</a><br><br>"#,
   r#"      <strong style="color:#234926;">Tu Empresa S.A.</strong><br>"#,
   r#"      <span style="color:#4F764D;">"#,
   "        Tu Dirección<br>",
   "        Tu Ciudad, PAÍS<br>",
   r#"        <a href="https://www.tuweb.com" style="color:#4F764D; text-decoration:none;">www.tuweb.com</a><br>"#,
   "        Tlf.: +00 000 00 00 00",
   "      </span>",
   "    </td>",
   r#"    <td style="padding:15px; vertical-align:top; text-align:right; width:40%;">"#,
   r#"      <a href="https://www.tuweb.com" style="text-decoration:none;">"#,
   "        <img",
   r#"          src="https://via.placeholder.com/300x100?text=Logo+Empresa""#,
   r#"          alt="Logo Empresa""#,
   r#"          style="display:block; width: 300px; height:auto; border:0;""#,
   "        >",
   "      </a>",
   "    </td>",
   "  </tr>",
   "  <tr>",
   r#"    <td colspan="2" style="padding:15px;">"#,
   r#"      <span style="font-size:11px; line-height:1.3; color:#4F764D;">"#,
   "        Este mensaje y sus archivos adjuntos van dirigidos exclusivamente a su destinatario, pudiendo contener",
   "        información confidencial sometida a secreto profesional. No está permitida su reproducción o distribución sin la",
   "        autorización expresa de la empresa. Si usted no es el destinatario final por favor elimínelo e infórmenos por esta",
   "        vía.",
   "      </span>",
   "    </td>",
   "  </tr>",
   "</table>"]

/-- The full line list of the `EMAIL_FOOTER` literal: it starts and ends
with a newline, i.e. with an empty line. -/
def EMAIL_FOOTER_LINES : List String := [""] ++ EMAIL_FOOTER_INNER ++ [""]

/-- Join pieces with a separator character (Python `sep.join`). -/
def joinWith (sep : Char) : List (List Char) → List Char
  | [] => []
  | [l] => l
  | l :: ls => l ++ sep :: joinWith sep ls

/-- `EMAIL_FOOTER` (graph_mail.py line 42) as a character list: the
newline-join of the lines of the triple-quoted literal. -/
def footerChars : List Char := joinWith '\n' (EMAIL_FOOTER_LINES.map String.data)

/-- `EMAIL_FOOTER` without its leading and trailing newline. -/
def footerMidChars : List Char := joinWith '\n' (EMAIL_FOOTER_INNER.map String.data)

def markerChars : List Char := FOOTER_MARKER_TEXT.data

def fmHtmlChars : List Char := FOOTER_MARKER_HTML.data

def bodyCloseChars : List Char := "</body>".data

/-- The whitespace characters stripped by Python's `str.strip()` (ASCII). -/
def pyWsChars : List Char := [' ', '\t', '\n', '\r', '\x0b', '\x0c']

/-- Python `s.strip(chars)`. -/
def pyStripSet (set : List Char) (l : List Char) : List Char :=
  ((l.dropWhile (fun c => c ∈ set)).reverse.dropWhile (fun c => c ∈ set)).reverse

/-- Python `s.strip()`. -/
def pyStrip (l : List Char) : List Char := pyStripSet pyWsChars l

/-- Python `s.replace("\n", "<br>")`. -/
def newlineToBr (l : List Char) : List Char :=
  l.flatMap (fun c => if c = '\n' then "<br>".data else [c])

/-- `ensure_html_string` (graph_mail.py line 95): guarantee an HTML body,
falling back to the plain text wrapped in a `div`. -/
def ensure_html_string (content_text : List Char) (content_html : Option (List Char)) :
    List Char :=
  match content_html with
  | some h => if pyStrip h ≠ [] then h
      else "<div>".data ++ newlineToBr content_text ++ "</div>".data
  | none => "<div>".data ++ newlineToBr content_text ++ "</div>".data

/-- `ensure_footer_once` (graph_mail.py line 104): append the footer only
when the marker is absent, before `</body>` when one exists. -/
def ensure_footer_once (html : List Char) : List Char :=
  if containsSub markerChars html then html
  else if ciSearch bodyCloseChars html then insertBeforeCi bodyCloseChars footerChars html
  else html ++ footerChars

/-- `insert_inline_images_before_footer` (graph_mail.py line 114). -/
def insert_inline_images_before_footer (html img_tags : List Char) : List Char :=
  if img_tags.isEmpty then html
  else if containsSub fmHtmlChars html then
    replaceFirst fmHtmlChars (img_tags ++ fmHtmlChars) html
  else if ciSearch bodyCloseChars html then insertBeforeCi bodyCloseChars img_tags html
  else html ++ img_tags

/-- The HTML message body assembled by `send_mail_graph`
(graph_mail.py lines 315-328): `content_html` is taken after
`extract_inline_preferences` ran and `img_tags` is the inline-image
markup produced by `build_attachments_payload` (both environment inputs
here). -/
def assembleBody (content_text : List Char) (content_html : Option (List Char))
    (img_tags : List Char) : List Char :=
  ensure_footer_once
    (insert_inline_images_before_footer (ensure_html_string content_text content_html) img_tags)

/-! ### `src/utils.py`: `clean_and_split_emails` (lines 240-313) -/

/-- Python `str.lower`, lifting `lowerChar` (ASCII and Latin-1 letters,
covering every cased character the repository's email validator admits)
over the string. -/
def mapLower (l : List Char) : List Char := l.map lowerChar

/-- Python `s.split(',')` (keeps empty pieces). -/
def splitOnComma : List Char → List (List Char)
  | [] => [[]]
  | c :: rest =>
    if c = ',' then [] :: splitOnComma rest
    else
      match splitOnComma rest with
      | [] => [[c]]
      | p :: ps => (c :: p) :: ps

/-- Python `s.split()`: split on whitespace runs, discarding empties. -/
def pyWords : List Char → List (List Char)
  | [] => []
  | c :: rest =>
    if c ∈ pyWsChars then pyWords rest
    else
      match rest with
      | [] => [[c]]
      | d :: _ =>
        if d ∈ pyWsChars then [c] :: pyWords rest
        else
          match pyWords rest with
          | [] => [[c]]
          | w :: ws => (c :: w) :: ws

/-- `'"'` and `'\''`, the set given to `strip('"\'')`. -/
def quoteChars : List Char := ['"', '\'']

/-- `'('`, `')'`, `'['`, `']'`, and the two curly brackets:
the set given to `strip('()[]\x7b\x7d')`. -/
def parenBracketChars : List Char := ['(', ')', '[', ']', '\x7b', '\x7d']

/-- `'['`, `']'` and the two curly brackets: the set given to
`strip('[]\x7b\x7d')` in the JSON branch. -/
def squareBraceChars : List Char := ['[', ']', '\x7b', '\x7d']

def startsWithCh (c : Char) : List Char → Bool
  | [] => false
  | d :: _ => d = c

def endsWithCh (c : Char) (l : List Char) : Bool :=
  match l.getLast? with
  | some d => d = c
  | none => false

/-- Splitting the cleaned input into raw email candidates
(utils.py lines 263-286): the JSON-ish branch versus the
multi-separator branch. -/
def emailParts (cleaned : List Char) : List (List Char) :=
  if (startsWithCh '[' cleaned && endsWithCh ']' cleaned) ||
      (startsWithCh '\x7b' cleaned && endsWithCh '\x7d' cleaned) then
    let inner := pyStripSet squareBraceChars cleaned
    let inner := inner.filter (fun c => c ∉ quoteChars)
    ((splitOnComma inner).map pyStrip).filter (fun p => !p.isEmpty)
  else
    let repl := cleaned.map
      (fun c => if c = ';' ∨ c = '|' ∨ c = '\n' ∨ c = '\r' ∨ c = '\t' then ',' else c)
    ((splitOnComma repl).map pyStrip).filter (fun p => !p.isEmpty)

/-- Per-candidate normalisation (utils.py lines 290-300). -/
def normalizeEmail (email : List Char) : List Char :=
  let e := pyStripSet quoteChars email
  let e := joinWith ' ' (pyWords e)
  let e := pyStripSet parenBracketChars e
  let e := mapLower e
  pyStrip e

/-- The normalised candidates that pass the `'@' in email` check
(utils.py lines 288-303). -/
def cleanedEmails (cleaned : List Char) : List (List Char) :=
  ((emailParts cleaned).map normalizeEmail).filter
    (fun e => !e.isEmpty && e.contains '@')

/-- First-occurrence deduplication with a `seen` set
(utils.py lines 305-311). -/
def dedupeFirst (seen : List (List Char)) : List (List Char) → List (List Char)
  | [] => []
  | e :: rest =>
    if e ∈ seen then dedupeFirst seen rest
    else e :: dedupeFirst (e :: seen) rest

/-- BOM / non-breaking-space / zero-width-space removal
(utils.py lines 254-257). -/
def removeInvisible (l : List Char) : List Char :=
  (((l.filter (fun c => c ≠ '\uFEFF')).map
    (fun c => if c = '\u00A0' then ' ' else c)).filter (fun c => c ≠ '\u200B'))

/-- The characters that `clean_and_split_emails` treats as content-free:
the removed invisible characters together with ordinary whitespace. -/
def invisibleOrWsChars : List Char := '\uFEFF' :: '\u00A0' :: '\u200B' :: pyWsChars

/-- A Python argument that may or may not be a string
(the `isinstance(raw_value, str)` guard). -/
inductive PyStrArg where
  | str (s : List Char)
  | nonstr

/-- `clean_and_split_emails` (utils.py lines 240-313). -/
def clean_and_split_emails (raw_value : PyStrArg) : List (List Char) :=
  match raw_value with
  | .nonstr => []
  | .str s =>
    if s.isEmpty then []
    else
      let cleaned := pyStrip (removeInvisible s)
      if cleaned.isEmpty then []
      else dedupeFirst [] (cleanedEmails cleaned)

/-! ### `src/linkedin.py`: publication payload and post metrics -/

/-- Python truthiness of an optional string (`None` and `""` are falsy). -/
def pyTruthyStr : Option String → Bool
  | none => false
  | some s => !s.isEmpty

structure MediaEntry where
  status : String
  media : String
deriving DecidableEq

structure ShareContent where
  shareCommentary : String
  shareMediaCategory : String
  media : Option (List MediaEntry)
deriving DecidableEq

structure UgcPayload where
  author : String
  lifecycleState : String
  specificContent : ShareContent
  visibility : String
deriving DecidableEq

/-- `LinkedInClient.post` (linkedin.py lines 102-158): the publication
payload POSTed to `/v2/ugcPosts`.  `registerUrn k` is the asset URN that
the k-th `_register_asset` call of this invocation returns (an oracle
for the upload dialogue); the `media` key is present only when there are
media entries. -/
def buildPostPayload (author_urn post_visibility : String) (is_organization : Bool)
    (registerUrn : Nat → String) (text : String) (image_paths : List String)
    (video_path : Option String) : UgcPayload :=
  let pair :=
    if pyTruthyStr video_path then
      ("VIDEO", [{ status := "READY", media := registerUrn 0 : MediaEntry }])
    else if !image_paths.isEmpty then
      ("IMAGE", (List.range image_paths.length).map
        (fun i => { status := "READY", media := registerUrn i : MediaEntry }))
    else
      ("NONE", [])
  let media_category := pair.1
  let media_list := pair.2
  let vis := if is_organization ∧ post_visibility = "PUBLIC" then "PUBLIC" else post_visibility
  { author := author_urn
    lifecycleState := "PUBLISHED"
    specificContent :=
      { shareCommentary := text
        shareMediaCategory := media_category
        media := if !media_list.isEmpty then some media_list else none }
    visibility := vis }

/-- Python's bankers `round` to an integer, on exact rationals. -/
def pyRoundInt (x : ℚ) : ℤ :=
  if x - ⌊x⌋ < 1 / 2 then ⌊x⌋
  else if 1 / 2 < x - ⌊x⌋ then ⌊x⌋ + 1
  else if ⌊x⌋ % 2 = 0 then ⌊x⌋ else ⌊x⌋ + 1

/-- Python `round(x, 2)`. -/
def pyRound2 (x : ℚ) : ℚ := (pyRoundInt (x * 100) : ℚ) / 100

/-- One element of `totalShareStatistics` as `get_post_metrics` reads it. -/
structure ShareStats where
  share : String
  impressionCount : Nat
  clickCount : Nat
  likeCount : Nat
  commentCount : Nat
  shareCount : Nat
deriving DecidableEq

/-- One row of the DataFrame built by `get_post_metrics`. -/
structure MetricRow where
  post_id : String
  impresiones : Nat
  clics : Nat
  likes : Nat
  comentarios : Nat
  compartidos : Nat
  er_pct : ℚ
deriving DecidableEq

/-- The row construction of `get_post_metrics` (linkedin.py lines 274-293). -/
def rowOf (item : ShareStats) : MetricRow :=
  let imp := item.impressionCount
  let cli := item.clickCount
  let lik := item.likeCount
  let com := item.commentCount
  let sha := item.shareCount
  let er : ℚ := if 0 < imp then ((lik : ℚ) + com + sha + cli) / imp * 100 else 0
  { post_id := item.share, impresiones := imp, clics := cli, likes := lik,
    comentarios := com, compartidos := sha, er_pct := pyRound2 er }

def shareUrnChars : List Char := "urn:li:share:".data

def ugcUrnChars : List Char := "urn:li:ugcPost:".data

/-- The share-type ids kept by the filter at linkedin.py line 243. -/
def validPostIds (post_ids : List String) : List String :=
  post_ids.filter (fun pid => containsSub shareUrnChars pid.data)

/-- The ugcPost-type ids, excluded with a warning (line 244). -/
def ugcPostIds (post_ids : List String) : List String :=
  post_ids.filter (fun pid => containsSub ugcUrnChars pid.data)

/-- The ids actually sent to the statistics endpoint: the share-type
ones, truncated to 20 (linkedin.py line 254). -/
def queriedPostIds (post_ids : List String) : List String :=
  (validPostIds post_ids).take 20

/-- `get_post_metrics` (linkedin.py lines 229-302).  `response ids` is
the HTTP oracle: the parsed `elements` of a 200 response to the
statistics query for `ids`, or `none` for a non-200 response or a
request exception. -/
def get_post_metrics (post_ids : List String)
    (response : List String → Option (List ShareStats)) : Option (List MetricRow) :=
  if post_ids.isEmpty then none
  else if (validPostIds post_ids).isEmpty then none
  else
    match response (queriedPostIds post_ids) with
    | some elements => some (elements.map rowOf)
    | none => none

/-- The per-post counters accumulated by `get_post_metrics_advanced`
with `aggregation="TOTAL"` (a metric that failed to fetch is 0,
`members_reached` is absent unless fetched). -/
structure AdvancedCounts where
  impression : Nat
  reaction : Nat
  comment : Nat
  reshare : Nat
  click_count : Nat
  members_reached : Option Nat
deriving DecidableEq

structure AdvancedDerived where
  er_pct : ℚ
  reach_rate_pct : ℚ
  virality_pct : ℚ
  total_engagement : Nat
deriving DecidableEq

/-- The derived-metric block of `get_post_metrics_advanced`
(linkedin.py lines 731-754). -/
def advancedDerived (c : AdvancedCounts) : AdvancedDerived :=
  let impressions := c.impression
  let members_reached := c.members_reached.getD impressions
  let total_engagement := c.reaction + c.comment + c.reshare + c.click_count
  let er : ℚ := if 0 < impressions then (total_engagement : ℚ) / impressions * 100 else 0
  let reach_rate : ℚ :=
    if 0 < impressions then (members_reached : ℚ) / impressions * 100 else 0
  let virality : ℚ := if 0 < impressions then (c.reshare : ℚ) / impressions * 100 else 0
  { er_pct := pyRound2 er, reach_rate_pct := pyRound2 reach_rate,
    virality_pct := pyRound2 virality, total_engagement := total_engagement }

/-! ### `src/graph_mail.py`: bulk and batch dispatch -/

/-- Outcome of one `sendMail` POST, decided by the Graph endpoint. -/
inductive SendOutcome where
  | accepted
  | httpError (code : Nat) (body : String)
  | connError (msg : String)

structure FailEntry where
  email : String
  error : String
deriving DecidableEq

/-- The result dict of `send_mail_graph_bulk` / `send_mail_graph_batch`. -/
structure BulkResult where
  total : Nat
  successful : Nat
  failed : Nat
  successful_emails : List String
  failed_emails : List FailEntry
deriving DecidableEq

/-- Observable network / timing events of a bulk dispatch. -/
inductive TraceEv where
  | send (recipient : String)
  | sleep (seconds : ℚ)
deriving DecidableEq

/-- The per-recipient loop of `send_mail_graph_bulk`
(graph_mail.py lines 449-511): one `sendMail` POST per recipient, whose
outcome is `env idx`, and a `time.sleep(delay)` after every send except
the last (`if idx < total`). -/
def bulkLoop (env : Nat → SendOutcome) (delay : ℚ) :
    Nat → List String → List String × List FailEntry × List TraceEv
  | _, [] => ([], [], [])
  | idx, r :: rest =>
    let tail := bulkLoop env delay (idx + 1) rest
    let trace := if rest.isEmpty then tail.2.2 else TraceEv.sleep delay :: tail.2.2
    match env idx with
    | .accepted => (r :: tail.1, tail.2.1, TraceEv.send r :: trace)
    | .httpError code body =>
      (tail.1,
        { email := r, error := "HTTP " ++ toString code ++ ": " ++ body.take 200 } :: tail.2.1,
        TraceEv.send r :: trace)
    | .connError msg =>
      (tail.1,
        { email := r, error := "Error de conexión: " ++ msg } :: tail.2.1,
        TraceEv.send r :: trace)

/-- `send_mail_graph_bulk` (graph_mail.py lines 378-529), returning the
result dict and the trace of sends and sleeps.  `configOk` / `tokenOk`
model `get_graph_config` / `get_access_token` succeeding; the HTML body
is assembled once, as in the code, from the post-preference HTML and the
inline-image tags. -/
def send_mail_graph_bulk (configOk tokenOk : Bool) (env : Nat → SendOutcome)
    (content_text : List Char) (content_html : Option (List Char)) (img_tags : List Char)
    (delay_between_emails : ℚ) (receivers : List String) : BulkResult × List TraceEv :=
  if receivers.isEmpty then
    ({ total := 0, successful := 0, failed := 0,
       successful_emails := [], failed_emails := [] }, [])
  else if !configOk then
    ({ total := receivers.length, successful := 0, failed := receivers.length,
       successful_emails := [],
       failed_emails :=
         receivers.map (fun e => { email := e, error := "Configuración incompleta" }) }, [])
  else if !tokenOk then
    ({ total := receivers.length, successful := 0, failed := receivers.length,
       successful_emails := [],
       failed_emails :=
         receivers.map
           (fun e => { email := e, error := "No se pudo obtener token de acceso" }) }, [])
  else
    let _html := assembleBody content_text content_html img_tags
    let run := bulkLoop env delay_between_emails 1 receivers
    ({ total := receivers.length, successful := run.1.length, failed := run.2.1.length,
       successful_emails := run.1, failed_emails := run.2.1 }, run.2.2)

/-- Outcome of one `$batch` POST.  For a 200 answer the compliant Graph
endpoint echoes exactly one response per request id; `responses i` is
the status and optional error message for request id `i`. -/
inductive BatchOutcome where
  | ok (responses : Nat → Nat × Option String)
  | httpError (code : Nat) (body : String)
  | connError (msg : String)

/-- Splitting one 200 batch response into successes and failures
(graph_mail.py lines 648-675), walking the slice whose request ids start
at `i`. -/
def okSplit (responses : Nat → Nat × Option String) :
    Nat → List String → List String × List FailEntry
  | _, [] => ([], [])
  | i, r :: rest =>
    let tail := okSplit responses (i + 1) rest
    let st := (responses i).1
    if st = 202 then (r :: tail.1, tail.2)
    else
      (tail.1,
        { email := r,
          error := (responses i).2.getD ("HTTP " ++ toString st) } :: tail.2)

/-- Per-batch outcome handling of `send_mail_graph_batch`
(graph_mail.py lines 641-686). -/
def perBatch (out : BatchOutcome) (startIdx : Nat) (chunk : List String) :
    List String × List FailEntry :=
  match out with
  | .ok responses => okSplit responses startIdx chunk
  | .httpError code body =>
    ([], chunk.map (fun r =>
      { email := r,
        error := "Batch falló: HTTP " ++ toString code ++ " - " ++ body.take 200 }))
  | .connError msg =>
    ([], chunk.map (fun r =>
      { email := r, error := "Error de conexión en batch: " ++ msg }))

/-- The consecutive receiver slices `receivers[b*size : min((b+1)*size,total)]`
taken by `send_mail_graph_batch` (graph_mail.py lines 605-611). -/
def batchChunks (receivers : List String) (batch_size : Nat) : List (List String) :=
  (List.range ((receivers.length + batch_size - 1) / batch_size)).map
    (fun b => (receivers.drop (b * batch_size)).take batch_size)

/-- `send_mail_graph_batch` (graph_mail.py lines 535-707).  `env b` is
the endpoint's outcome for the b-th `$batch` POST. -/
def send_mail_graph_batch (configOk tokenOk : Bool) (env : Nat → BatchOutcome)
    (content_text : List Char) (content_html : Option (List Char)) (img_tags : List Char)
    (batch_size : Nat) (receivers : List String) : BulkResult :=
  if receivers.isEmpty then
    { total := 0, successful := 0, failed := 0,
      successful_emails := [], failed_emails := [] }
  else if !configOk then
    { total := receivers.length, successful := 0, failed := receivers.length,
      successful_emails := [],
      failed_emails :=
        receivers.map (fun e => { email := e, error := "Configuración incompleta" }) }
  else if !tokenOk then
    { total := receivers.length, successful := 0, failed := receivers.length,
      successful_emails := [],
      failed_emails :=
        receivers.map (fun e => { email := e, error := "No se pudo obtener token" }) }
  else
    let _html := assembleBody content_text content_html img_tags
    let results :=
      (List.range ((receivers.length + batch_size - 1) / batch_size)).map
        (fun b => perBatch (env b) (b * batch_size)
          ((receivers.drop (b * batch_size)).take batch_size))
    let succ := (results.map Prod.fst).flatten
    let failures := (results.map Prod.snd).flatten
    { total := receivers.length, successful := succ.length, failed := failures.length,
      successful_emails := succ, failed_emails := failures }

/-! ### `scripts/auto_analytics.py`: metric reconciliation -/

/-- A SQLAlchemy session over row type `μ`: the rows already committed,
the staged view of those rows (updates pending commit), and the rows
added pending commit.  `commit` persists the staged state, `rollback`
discards it. -/
structure PySession (μ : Type) where
  committed : List μ
  working : List μ
  added : List μ
deriving DecidableEq

def PySession.add {μ : Type} (s : PySession μ) (m : μ) : PySession μ :=
  { s with added := s.added ++ [m] }

def PySession.commit {μ : Type} (s : PySession μ) : PySession μ :=
  { committed := s.working ++ s.added, working := s.working ++ s.added, added := [] }

def PySession.rollback {μ : Type} (s : PySession μ) : PySession μ :=
  { committed := s.committed, working := s.committed, added := [] }

/-- A session with no pending changes. -/
def PySession.clean {μ : Type} (s : PySession μ) : Prop :=
  s.working = s.committed ∧ s.added = []

structure PostData where
  post_id : String
  texto_completo : String
  tipo : String
deriving DecidableEq

structure LinkedInMetric where
  post_id : String
  post_text : String
  post_type : String
  impresiones : Int
  clics : Int
  likes : Int
  comentarios : Int
  compartidos : Int
  engagement_rate : ℚ
deriving DecidableEq

/-- The `LinkedInMetric(...)` row built at auto_analytics.py lines 169-180. -/
def metricOf (p : PostData) (row : MetricRow) : LinkedInMetric :=
  { post_id := p.post_id, post_text := p.texto_completo, post_type := p.tipo,
    impresiones := row.impresiones, clics := row.clics, likes := row.likes,
    comentarios := row.comentarios, compartidos := row.compartidos,
    engagement_rate := row.er_pct }

/-- The save loop of `collect_linkedin_metrics`
(auto_analytics.py lines 143-201): a post with no matching metrics row
is skipped, otherwise the metric row is staged with `session.add`;
`queryOk idx` tells whether the `session.query` for the idx-th post
raises, and a raised exception carries the session state at the throw. -/
def liLoop (rows : List MetricRow) (queryOk : Nat → Bool) :
    Nat → PySession LinkedInMetric → List PostData →
    Except (PySession LinkedInMetric) (PySession LinkedInMetric × Nat)
  | _, s, [] => .ok (s, 0)
  | idx, s, p :: rest =>
    match rows.find? (fun r => r.post_id == p.post_id) with
    | none => liLoop rows queryOk (idx + 1) s rest
    | some row =>
      if queryOk idx then
        match liLoop rows queryOk (idx + 1) (s.add (metricOf p row)) rest with
        | .error sErr => .error sErr
        | .ok (s', n) => .ok (s', n + 1)
      else .error s

/-- `collect_linkedin_metrics` (auto_analytics.py lines 111-212),
returning the function result and the final session state. -/
def collect_linkedin_metrics (posts : List PostData) (df : Option (List MetricRow))
    (queryOk : Nat → Bool) (commitOk : Bool) (s : PySession LinkedInMetric) :
    Nat × PySession LinkedInMetric :=
  if posts.isEmpty then (0, s)
  else
    match df with
    | none => (0, s)
    | some rows =>
      if rows.isEmpty then (0, s)
      else
        match liLoop rows queryOk 1 s posts with
        | .error sErr => (0, sErr.rollback)
        | .ok (s', metrics_saved) =>
          if commitOk then (metrics_saved, s'.commit) else (0, s'.rollback)

/-- Whether `collect_linkedin_metrics` hits its `except` handler. -/
def liErrored (posts : List PostData) (df : Option (List MetricRow))
    (queryOk : Nat → Bool) (commitOk : Bool) (s : PySession LinkedInMetric) : Bool :=
  if posts.isEmpty then false
  else
    match df with
    | none => false
    | some rows =>
      if rows.isEmpty then false
      else
        match liLoop rows queryOk 1 s posts with
        | .error _ => true
        | .ok _ => !commitOk

/-- A row of the follower-growth DataFrame; a field is `none` when its
value cannot be converted by `int(...)`. -/
structure GrowthRow where
  fecha : Int
  ganancia_organica : Option Int
  ganancia_pagada : Option Int
  ganancia_total : Option Int
deriving DecidableEq

structure FollowerMetric where
  date : Int
  ganancia_organica : Int
  ganancia_pagada : Int
  ganancia_total : Int
deriving DecidableEq

/-- Update the staged copy of every stored row for `fecha`
(auto_analytics.py lines 243-248). -/
def updateByDate (fecha o p t : Int) (s : PySession FollowerMetric) :
    PySession FollowerMetric :=
  let upd := fun (r : FollowerMetric) =>
    if r.date = fecha then
      { r with ganancia_organica := o, ganancia_pagada := p, ganancia_total := t }
    else r
  { s with working := s.working.map upd, added := s.added.map upd }

/-- The row loop of `collect_follower_growth`
(auto_analytics.py lines 235-258): an unconvertible value raises,
carrying the session state at the throw; an existing row for the date is
updated, otherwise a new one is added and `records_saved` counts it. -/
def fgLoop : PySession FollowerMetric → List GrowthRow →
    Except (PySession FollowerMetric) (PySession FollowerMetric × Nat)
  | s, [] => .ok (s, 0)
  | s, row :: rest =>
    match row.ganancia_organica, row.ganancia_pagada, row.ganancia_total with
    | some o, some p, some t =>
      let hasExisting := (s.working ++ s.added).any (fun r => r.date == row.fecha)
      let s' :=
        if hasExisting then updateByDate row.fecha o p t s
        else s.add { date := row.fecha, ganancia_organica := o,
                     ganancia_pagada := p, ganancia_total := t }
      match fgLoop s' rest with
      | .error sErr => .error sErr
      | .ok (s'', n) => .ok (s'', n + (if hasExisting then 0 else 1))
    | _, _, _ => .error s

/-- `collect_follower_growth` (auto_analytics.py lines 215-269),
returning the function result and the final session state. -/
def collect_follower_growth (df : Option (List GrowthRow)) (commitOk : Bool)
    (s : PySession FollowerMetric) : Nat × PySession FollowerMetric :=
  match df with
  | none => (0, s)
  | some rows =>
    if rows.isEmpty then (0, s)
    else
      match fgLoop s rows with
      | .error sErr => (0, sErr.rollback)
      | .ok (s', records_saved) =>
        if commitOk then (records_saved, s'.commit) else (0, s'.rollback)

/-- Whether `collect_follower_growth` hits its `except` handler. -/
def fgErrored (df : Option (List GrowthRow)) (commitOk : Bool)
    (s : PySession FollowerMetric) : Bool :=
  match df with
  | none => false
  | some rows =>
    if rows.isEmpty then false
    else
      match fgLoop s rows with
      | .error _ => true
      | .ok _ => !commitOk

/-! ### Spec-side definitions -/

/-- Spec-side reading of claim C7: the dispatch trace demanded by the
spec - one send per recipient in list order with a sleep of
`delay_between_emails` seconds after each send except the last. -/
def specSequentialTrace (delay : ℚ) : List String → List TraceEv
  | [] => []
  | [r] => [TraceEv.send r]
  | r :: rest => TraceEv.send r :: TraceEv.sleep delay :: specSequentialTrace delay rest

/-- The recipients of the `sendMail` requests of a trace, in order. -/
def sendTargets (trace : List TraceEv) : List String :=
  trace.filterMap (fun e => match e with | .send r => some r | .sleep _ => none)

/-! ## Lemmas about the substring helpers -/

theorem isPrefixOf_append_of_prefix {pat s : List Char} (t : List Char)
    (h : pat.isPrefixOf s = true) : pat.isPrefixOf (s ++ t) = true := by
  rw [ List.isPrefixOf_iff_prefix] at h ⊢
  exact h.trans (List.prefix_append s t)

theorem isPrefixOf_append_sep (pat : List Char) (c : Char) (hc : c ∉ pat) :
    ∀ s b : List Char, pat.isPrefixOf (s ++ c :: b) = pat.isPrefixOf s := by
  induction pat with
  | nil => intro s b; cases s <;> rfl
  | cons p ps ih =>
    intro s b
    cases s with
    | nil =>
      simp only [List.nil_append, List.isPrefixOf]
      have hpc : p ≠ c := fun h => hc (h ▸ List.mem_cons_self p ps)
      simp [hpc]
    | cons a s' =>
      simp only [List.cons_append, List.isPrefixOf, List.append_eq]
      rw [ih (fun h => hc (List.mem_cons_of_mem p h)) s' b]

theorem countSub_append_sep (pat : List Char) (hne : pat ≠ []) (c : Char) (hc : c ∉ pat) :
    ∀ a b : List Char, countSub pat (a ++ c :: b) = countSub pat a + countSub pat b := by
  intro a
  induction a with
  | nil =>
    intro b
    obtain ⟨p, ps, rfl⟩ := List.exists_cons_of_ne_nil hne
    have hpc : p ≠ c := fun h => hc (h ▸ List.mem_cons_self p ps)
    simp [countSub, List.isPrefixOf, hpc]
  | cons x a' ih =>
    intro b
    have hpref : pat.isPrefixOf (x :: (a' ++ c :: b)) = pat.isPrefixOf (x :: a') := by
      have h := isPrefixOf_append_sep pat c hc (x :: a') b
      simpa using h
    simp only [List.cons_append, countSub, List.append_eq, ih b, hpref]
    omega

theorem countSub_eq_zero_iff (pat : List Char) (hne : pat ≠ []) :
    ∀ s : List Char, countSub pat s = 0 ↔ containsSub pat s = false := by
  intro s
  induction s with
  | nil => simp [countSub, containsSub, List.isEmpty_iff, hne]
  | cons c rest ih =>
    simp only [countSub, containsSub, Bool.or_eq_false_iff]
    by_cases hp : pat.isPrefixOf (c :: rest) = true
    · rw [if_pos hp, hp]
      simp
    · rw [if_neg hp, Nat.zero_add, ih]
      simp only [Bool.not_eq_true] at hp
      simp [hp]

theorem countSub_pos_contains {pat s : List Char} (hne : pat ≠ [])
    (h : containsSub pat s = true) : 0 < countSub pat s := by
  rcases Nat.eq_zero_or_pos (countSub pat s) with h0 | h0
  · rw [(countSub_eq_zero_iff pat hne s).mp h0] at h; cases h
  · exact h0

theorem countSub_le_append_right (pat : List Char) :
    ∀ a b : List Char, countSub pat b ≤ countSub pat (a ++ b) := by
  intro a b
  induction a with
  | nil => simp
  | cons x a' ih =>
    simp only [List.cons_append, countSub, List.append_eq]
    omega

theorem countSub_le_append_left (pat : List Char) :
    ∀ a b : List Char, countSub pat a ≤ countSub pat (a ++ b) := by
  intro a b
  induction a with
  | nil => simp [countSub]
  | cons x a' ih =>
    simp only [List.cons_append, countSub, List.append_eq]
    by_cases hp : pat.isPrefixOf (x :: a') = true
    · have hp2 : pat.isPrefixOf (x :: (a' ++ b)) = true := by
        have h := isPrefixOf_append_of_prefix (s := x :: a') b hp
        simpa using h
      rw [if_pos hp, if_pos hp2]
      omega
    · rw [if_neg hp]
      omega

theorem containsSub_iff_infix (pat : List Char) :
    ∀ s : List Char, containsSub pat s = true ↔ pat <:+: s := by
  intro s
  induction s with
  | nil =>
    simp only [containsSub, List.isEmpty_iff, List.infix_nil]
  | cons c rest ih =>
    simp only [containsSub, Bool.or_eq_true, List.infix_cons_iff, ih,
      List.isPrefixOf_iff_prefix]

theorem countSub_cons_sep (pat : List Char) (hne : pat ≠ []) (c : Char) (hc : c ∉ pat)
    (b : List Char) : countSub pat (c :: b) = countSub pat b := by
  have h := countSub_append_sep pat hne c hc [] b
  simpa [countSub] using h

theorem joinWith_cons (sep : Char) (l : List Char) (ls : List (List Char)) (h : ls ≠ []) :
    joinWith sep (l :: ls) = l ++ sep :: joinWith sep ls := by
  cases ls with
  | nil => exact absurd rfl h
  | cons a as => rfl

theorem joinWith_append_nil (sep : Char) :
    ∀ ls : List (List Char), ls ≠ [] → joinWith sep (ls ++ [[]]) = joinWith sep ls ++ [sep] := by
  intro ls
  induction ls with
  | nil => intro h; exact absurd rfl h
  | cons l ls ih =>
    intro _
    cases ls with
    | nil => rfl
    | cons a as =>
      rw [List.cons_append, joinWith_cons sep l ((a :: as) ++ [[]]) (by simp),
        joinWith_cons sep l (a :: as) (by simp), ih (by simp)]
      simp

theorem countSub_joinWith (pat : List Char) (hne : pat ≠ []) (sep : Char) (hsep : sep ∉ pat) :
    ∀ ls : List (List Char), countSub pat (joinWith sep ls) = (ls.map (countSub pat)).sum := by
  intro ls
  induction ls with
  | nil => simp [joinWith, countSub]
  | cons l ls ih =>
    cases ls with
    | nil => simp [joinWith]
    | cons a as =>
      rw [joinWith_cons sep l (a :: as) (by simp),
        countSub_append_sep pat hne sep hsep, ih]
      simp

theorem footerChars_eq : footerChars = '\n' :: (footerMidChars ++ ['\n']) := by
  have h1 : EMAIL_FOOTER_LINES.map String.data
      = [] :: (EMAIL_FOOTER_INNER.map String.data ++ [[]]) := by
    simp [EMAIL_FOOTER_LINES]
  have h2 : EMAIL_FOOTER_INNER.map String.data ≠ [] := by
    simp [EMAIL_FOOTER_INNER]
  rw [footerChars, h1, joinWith_cons _ _ _ (by simp),
    joinWith_append_nil _ _ h2, footerMidChars]
  rfl

set_option maxRecDepth 4000 in
theorem countSub_footerMid : countSub markerChars footerMidChars = 1 := by
  rw [footerMidChars, countSub_joinWith markerChars (by decide) '\n' (by decide)]
  decide

theorem countSub_append_footer (a : List Char) :
    countSub markerChars (a ++ footerChars) = countSub markerChars a + 1 := by
  have hmid : footerMidChars ++ ['\n'] = footerMidChars ++ '\n' :: ([] : List Char) := rfl
  rw [footerChars_eq, countSub_append_sep markerChars (by decide) '\n' (by decide) a,
    hmid, countSub_append_sep markerChars (by decide) '\n' (by decide) footerMidChars,
    countSub_footerMid]
  simp [countSub]

theorem countSub_footer_insert (u v : List Char) :
    countSub markerChars (u ++ footerChars ++ v)
      = countSub markerChars u + 1 + countSub markerChars v := by
  have h1 : u ++ footerChars ++ v = u ++ '\n' :: (footerMidChars ++ '\n' :: v) := by
    rw [footerChars_eq]; simp
  rw [h1, countSub_append_sep markerChars (by decide) '\n' (by decide) u,
    countSub_append_sep markerChars (by decide) '\n' (by decide) footerMidChars,
    countSub_footerMid]
  omega

theorem lowerChar_cases (c : Char) :
    lowerChar c = c ∨ lowerChar c ∈ "abcdefghijklmnopqrstuvwxyzàáâãäåæçèéêëìíîïðñòóôõöøùúûüýþ".data := by
  by_cases h1 : c = 'A'
  · subst h1; decide
  by_cases h2 : c = 'B'
  · subst h2; decide
  by_cases h3 : c = 'C'
  · subst h3; decide
  by_cases h4 : c = 'D'
  · subst h4; decide
  by_cases h5 : c = 'E'
  · subst h5; decide
  by_cases h6 : c = 'F'
  · subst h6; decide
  by_cases h7 : c = 'G'
  · subst h7; decide
  by_cases h8 : c = 'H'
  · subst h8; decide
  by_cases h9 : c = 'I'
  · subst h9; decide
  by_cases h10 : c = 'J'
  · subst h10; decide
  by_cases h11 : c = 'K'
  · subst h11; decide
  by_cases h12 : c = 'L'
  · subst h12; decide
  by_cases h13 : c = 'M'
  · subst h13; decide
  by_cases h14 : c = 'N'
  · subst h14; decide
  by_cases h15 : c = 'O'
  · subst h15; decide
  by_cases h16 : c = 'P'
  · subst h16; decide
  by_cases h17 : c = 'Q'
  · subst h17; decide
  by_cases h18 : c = 'R'
  · subst h18; decide
  by_cases h19 : c = 'S'
  · subst h19; decide
  by_cases h20 : c = 'T'
  · subst h20; decide
  by_cases h21 : c = 'U'
  · subst h21; decide
  by_cases h22 : c = 'V'
  · subst h22; decide
  by_cases h23 : c = 'W'
  · subst h23; decide
  by_cases h24 : c = 'X'
  · subst h24; decide
  by_cases h25 : c = 'Y'
  · subst h25; decide
  by_cases h26 : c = 'Z'
  · subst h26; decide
  by_cases h27 : c = 'À'
  · subst h27; decide
  by_cases h28 : c = 'Á'
  · subst h28; decide
  by_cases h29 : c = 'Â'
  · subst h29; decide
  by_cases h30 : c = 'Ã'
  · subst h30; decide
  by_cases h31 : c = 'Ä'
  · subst h31; decide
  by_cases h32 : c = 'Å'
  · subst h32; decide
  by_cases h33 : c = 'Æ'
  · subst h33; decide
  by_cases h34 : c = 'Ç'
  · subst h34; decide
  by_cases h35 : c = 'È'
  · subst h35; decide
  by_cases h36 : c = 'É'
  · subst h36; decide
  by_cases h37 : c = 'Ê'
  · subst h37; decide
  by_cases h38 : c = 'Ë'
  · subst h38; decide
  by_cases h39 : c = 'Ì'
  · subst h39; decide
  by_cases h40 : c = 'Í'
  · subst h40; decide
  by_cases h41 : c = 'Î'
  · subst h41; decide
  by_cases h42 : c = 'Ï'
  · subst h42; decide
  by_cases h43 : c = 'Ð'
  · subst h43; decide
  by_cases h44 : c = 'Ñ'
  · subst h44; decide
  by_cases h45 : c = 'Ò'
  · subst h45; decide
  by_cases h46 : c = 'Ó'
  · subst h46; decide
  by_cases h47 : c = 'Ô'
  · subst h47; decide
  by_cases h48 : c = 'Õ'
  · subst h48; decide
  by_cases h49 : c = 'Ö'
  · subst h49; decide
  by_cases h50 : c = 'Ø'
  · subst h50; decide
  by_cases h51 : c = 'Ù'
  · subst h51; decide
  by_cases h52 : c = 'Ú'
  · subst h52; decide
  by_cases h53 : c = 'Û'
  · subst h53; decide
  by_cases h54 : c = 'Ü'
  · subst h54; decide
  by_cases h55 : c = 'Ý'
  · subst h55; decide
  by_cases h56 : c = 'Þ'
  · subst h56; decide
  left
  simp [lowerChar, h1, h2, h3, h4, h5, h6, h7, h8, h9, h10, h11, h12, h13, h14, h15, h16, h17, h18, h19, h20, h21, h22, h23, h24, h25, h26, h27, h28, h29, h30, h31, h32, h33, h34, h35, h36, h37, h38, h39, h40, h41, h42, h43, h44, h45, h46, h47, h48, h49, h50, h51, h52, h53, h54, h55, h56]

theorem lowerChar_idem (c : Char) : lowerChar (lowerChar c) = lowerChar c := by
  rcases lowerChar_cases c with h | h
  · simp [h]
  · have hlow : ∀ d ∈ "abcdefghijklmnopqrstuvwxyzàáâãäåæçèéêëìíîïðñòóôõöøùúûüýþ".data, lowerChar d = d := by decide
    exact hlow _ h

theorem lowerChar_eq_lt {c : Char} (h : lowerChar c = '<') : c = '<' := by
  rcases lowerChar_cases c with h2 | h2
  · rw [h2] at h; exact h
  · rw [h] at h2; exact absurd h2 (by decide)

theorem ciIsPrefixOf_bodyClose_head {v : List Char}
    (h : ciIsPrefixOf bodyCloseChars v = true) : ∃ v', v = '<' :: v' := by
  cases v with
  | nil => exact absurd h (by decide)
  | cons c v' =>
    refine ⟨v', ?_⟩
    have hbc : bodyCloseChars = '<' :: "/body>".data := by decide
    rw [hbc] at h
    simp only [ciIsPrefixOf, Bool.and_eq_true, decide_eq_true_eq] at h
    have h1 : lowerChar c = '<' := by
      have := h.1
      simpa using this.symm
    rw [lowerChar_eq_lt h1]

theorem insertBeforeCi_split (pat ins : List Char) (hpat : pat ≠ []) :
    ∀ s : List Char, ciSearch pat s = true →
      ∃ u v, s = u ++ v ∧ ciIsPrefixOf pat v = true ∧
        insertBeforeCi pat ins s = u ++ ins ++ v := by
  intro s
  induction s with
  | nil =>
    intro h
    simp [ciSearch, List.isEmpty_iff, hpat] at h
  | cons c rest ih =>
    intro h
    by_cases hp : ciIsPrefixOf pat (c :: rest) = true
    · exact ⟨[], c :: rest, rfl, hp, by simp [insertBeforeCi, hp]⟩
    · have h2 : ciSearch pat rest = true := by
        simp only [ciSearch, Bool.or_eq_true] at h
        rcases h with h | h
        · exact absurd h hp
        · exact h
      obtain ⟨u, v, hs, hciv, hins⟩ := ih h2
      refine ⟨c :: u, v, by rw [List.cons_append, hs], hciv, ?_⟩
      simp [insertBeforeCi, hp, hins]

theorem replaceFirst_split (pat repl : List Char) (hpat : pat ≠ []) :
    ∀ s : List Char, containsSub pat s = true →
      ∃ u v, s = u ++ pat ++ v ∧ replaceFirst pat repl s = u ++ repl ++ v := by
  intro s
  induction s with
  | nil =>
    intro h
    simp [containsSub, List.isEmpty_iff, hpat] at h
  | cons c rest ih =>
    intro h
    by_cases hp : pat.isPrefixOf (c :: rest) = true
    · have hp2 : pat <+: c :: rest := List.isPrefixOf_iff_prefix.mp hp
      obtain ⟨t, ht⟩ := hp2
      refine ⟨[], t, by rw [List.nil_append, ht], ?_⟩
      have hdrop : (c :: rest).drop pat.length = t := by
        rw [← ht]; exact List.drop_left pat t
      simp [replaceFirst, hp, hdrop]
    · have h2 : containsSub pat rest = true := by
        simp only [containsSub, Bool.or_eq_true] at h
        rcases h with h | h
        · exact absurd h hp
        · exact h
      obtain ⟨u, v, hs, hrepl⟩ := ih h2
      refine ⟨c :: u, v, by simp [hs], ?_⟩
      simp [replaceFirst, hp, hrepl]

theorem countSub_insert_inline (h0 imgs : List Char)
    (himgs : countSub markerChars imgs = 0)
    (hshape : imgs = [] ∨ ∃ m, imgs = '<' :: (m ++ ['>'])) :
    countSub markerChars (insert_inline_images_before_footer h0 imgs)
      = countSub markerChars h0 := by
  have hne : markerChars ≠ [] := by decide
  have hlt : ('<' : Char) ∉ markerChars := by decide
  have hgt : ('>' : Char) ∉ markerChars := by decide
  rcases hshape with rfl | ⟨m, rfl⟩
  · simp [insert_inline_images_before_footer]
  · have hm : countSub markerChars m = 0 := by
      have h1 : ('<' : Char) :: (m ++ ['>']) = '<' :: (m ++ '>' :: ([] : List Char)) := rfl
      rw [h1, countSub_cons_sep markerChars hne '<' hlt,
        countSub_append_sep markerChars hne '>' hgt] at himgs
      simpa [countSub] using himgs
    have hfmdec : fmHtmlChars = '<' :: ("!-- PIES-DE-EMAIL --".data ++ ['>']) := by decide
    have hfmmid : countSub markerChars ("!-- PIES-DE-EMAIL --".data) = 1 := by decide
    unfold insert_inline_images_before_footer
    rw [if_neg (by simp)]
    by_cases hfm : containsSub fmHtmlChars h0 = true
    · rw [if_pos hfm]
      obtain ⟨u, v, hs, hrepl⟩ :=
        replaceFirst_split fmHtmlChars (('<' :: (m ++ ['>'])) ++ fmHtmlChars)
          (by decide) h0 hfm
      rw [hrepl, hs]
      have eL : u ++ (('<' :: (m ++ ['>'])) ++ fmHtmlChars) ++ v
          = u ++ '<' :: (m ++ '>' :: ('<' :: ("!-- PIES-DE-EMAIL --".data ++ '>' :: v))) := by
        rw [hfmdec]; simp
      have eR : u ++ fmHtmlChars ++ v
          = u ++ '<' :: ("!-- PIES-DE-EMAIL --".data ++ '>' :: v) := by
        rw [hfmdec]; simp
      have hL : countSub markerChars
          (u ++ (('<' :: (m ++ ['>'])) ++ fmHtmlChars) ++ v)
          = countSub markerChars u + (countSub markerChars m
            + (countSub markerChars ("!-- PIES-DE-EMAIL --".data) + countSub markerChars v)) := by
        rw [eL, countSub_append_sep markerChars hne '<' hlt,
          countSub_append_sep markerChars hne '>' hgt,
          countSub_cons_sep markerChars hne '<' hlt,
          countSub_append_sep markerChars hne '>' hgt]
      have hR : countSub markerChars (u ++ fmHtmlChars ++ v)
          = countSub markerChars u
            + (countSub markerChars ("!-- PIES-DE-EMAIL --".data) + countSub markerChars v) := by
        rw [eR, countSub_append_sep markerChars hne '<' hlt,
          countSub_append_sep markerChars hne '>' hgt]
      rw [hL, hR]
      omega
    · rw [if_neg hfm]
      by_cases hbody : ciSearch bodyCloseChars h0 = true
      · rw [if_pos hbody]
        obtain ⟨u, v, hs, hciv, hins⟩ :=
          insertBeforeCi_split bodyCloseChars ('<' :: (m ++ ['>'])) (by decide) h0 hbody
        obtain ⟨v', rfl⟩ := ciIsPrefixOf_bodyClose_head hciv
        rw [hins, hs]
        have eL : u ++ ('<' :: (m ++ ['>'])) ++ '<' :: v'
            = u ++ '<' :: (m ++ '>' :: ('<' :: v')) := by simp
        have hL : countSub markerChars (u ++ ('<' :: (m ++ ['>'])) ++ '<' :: v')
            = countSub markerChars u + (countSub markerChars m + countSub markerChars v') := by
          rw [eL, countSub_append_sep markerChars hne '<' hlt,
            countSub_append_sep markerChars hne '>' hgt,
            countSub_cons_sep markerChars hne '<' hlt]
        have hR : countSub markerChars (u ++ '<' :: v')
            = countSub markerChars u + countSub markerChars v' := by
          rw [countSub_append_sep markerChars hne '<' hlt]
        rw [hL, hR]
        omega
      · rw [if_neg hbody]
        have eL : h0 ++ '<' :: (m ++ ['>']) = h0 ++ '<' :: (m ++ '>' :: ([] : List Char)) := rfl
        rw [eL, countSub_append_sep markerChars hne '<' hlt,
          countSub_append_sep markerChars hne '>' hgt]
        simp [countSub, hm]

theorem countSub_ensure_footer (html : List Char) :
    countSub markerChars (ensure_footer_once html)
      = if countSub markerChars html = 0 then 1 else countSub markerChars html := by
  have hne : markerChars ≠ [] := by decide
  have hlt : ('<' : Char) ∉ markerChars := by decide
  by_cases hc : containsSub markerChars html = true
  · have hpos := countSub_pos_contains hne hc
    unfold ensure_footer_once
    rw [if_pos hc, if_neg (by omega)]
  · have h0 : countSub markerChars html = 0 := by
      rw [countSub_eq_zero_iff markerChars hne]
      simpa using hc
    unfold ensure_footer_once
    rw [if_neg hc, if_pos h0]
    by_cases hbody : ciSearch bodyCloseChars html = true
    · rw [if_pos hbody]
      obtain ⟨u, v, hs, hciv, hins⟩ :=
        insertBeforeCi_split bodyCloseChars footerChars (by decide) html hbody
      obtain ⟨v', rfl⟩ := ciIsPrefixOf_bodyClose_head hciv
      rw [hins, countSub_footer_insert,
        countSub_cons_sep markerChars hne '<' hlt]
      rw [hs, countSub_append_sep markerChars hne '<' hlt] at h0
      omega
    · rw [if_neg hbody, countSub_append_footer, h0]

/-- C4 (counterexample): the message body assembled by `send_mail_graph`
does not always contain exactly one footer marker.  When the incoming
HTML already carries the marker twice, `ensure_footer_once` leaves it
untouched, so the assembled body holds two markers. -/
theorem assembled_body_two_markers :
    countSub markerChars
        (assembleBody [] (some ("PIES-DE-EMAILPIES-DE-EMAIL".data)) []) = 2 ∧
    ¬ countSub markerChars
        (assembleBody [] (some ("PIES-DE-EMAILPIES-DE-EMAIL".data)) []) = 1 := by
  exact ⟨by decide, by decide⟩

/-- C4 (amended): `ensure_footer_once` appends the footer only when the
marker is absent and is idempotent; the body assembled by
`send_mail_graph` contains exactly one footer marker whenever the
incoming HTML contains at most one marker occurrence and the inline
image tags are marker-free `<...>`-bracketed markup (or empty). -/
theorem footer_marker_discipline :
    (∀ html : List Char, containsSub markerChars html = true →
      ensure_footer_once html = html) ∧
    (∀ html : List Char,
      ensure_footer_once (ensure_footer_once html) = ensure_footer_once html) ∧
    (∀ (content_text : List Char) (content_html : Option (List Char))
        (img_tags : List Char),
      countSub markerChars img_tags = 0 →
      (img_tags = [] ∨ ∃ m, img_tags = '<' :: (m ++ ['>'])) →
      countSub markerChars (ensure_html_string content_text content_html) ≤ 1 →
      countSub markerChars (assembleBody content_text content_html img_tags) = 1) := by
  have hne : markerChars ≠ [] := by decide
  refine ⟨?_, ?_, ?_⟩
  · intro html hc
    unfold ensure_footer_once
    rw [if_pos hc]
  · intro html
    by_cases hc : containsSub markerChars html = true
    · have h1 : ensure_footer_once html = html := by
        unfold ensure_footer_once
        rw [if_pos hc]
      rw [h1, h1]
    · have h0 : countSub markerChars html = 0 := by
        rw [countSub_eq_zero_iff markerChars hne]
        simpa using hc
      have hres : countSub markerChars (ensure_footer_once html) = 1 := by
        rw [countSub_ensure_footer, if_pos h0]
      have hcres : containsSub markerChars (ensure_footer_once html) = true := by
        rcases Bool.eq_false_or_eq_true (containsSub markerChars (ensure_footer_once html))
          with ht | hf
        · exact ht
        · have := (countSub_eq_zero_iff markerChars hne _).mpr hf
          omega
      set efo := ensure_footer_once html with hefo
      unfold ensure_footer_once
      rw [if_pos hcres]
  · intro content_text content_html img_tags himgs hshape hbase
    unfold assembleBody
    rw [countSub_ensure_footer, countSub_insert_inline _ _ himgs hshape]
    rcases Nat.lt_or_ge (countSub markerChars (ensure_html_string content_text content_html)) 1
      with h | h
    · rw [if_pos (by omega)]
    · have h1 : countSub markerChars (ensure_html_string content_text content_html) = 1 :=
        Nat.le_antisymm hbase h
      rw [if_neg (by omega), h1]

/-- Closed instantiation of `footer_marker_discipline`: its hypotheses
hold at marker-carrying HTML and at a plain marker-free body with no
inline images, and the conclusions follow by applying the theorem. -/
theorem footer_marker_discipline_witness :
    containsSub markerChars markerChars = true ∧
    ensure_footer_once markerChars = markerChars ∧
    countSub markerChars (ensure_html_string [] (some ("<p>hola</p>".data))) ≤ 1 ∧
    countSub markerChars (assembleBody [] (some ("<p>hola</p>".data)) []) = 1 :=
  ⟨by decide, footer_marker_discipline.1 markerChars (by decide), by decide,
    footer_marker_discipline.2.2 [] (some ("<p>hola</p>".data)) [] (by decide)
      (Or.inl rfl) (by decide)⟩

/-- C2: the Engagement Rate reported by `get_post_metrics` and
`get_post_metrics_advanced` is (likes + comments + shares + clicks) /
impressions × 100, rounded to 2 decimals, whenever impressions are
positive (in the advanced variant the official metric names are
REACTION for likes and RESHARE for shares). -/
theorem engagement_rate_formula :
    (∀ item : ShareStats, 0 < item.impressionCount →
      (rowOf item).er_pct =
        pyRound2 (((item.likeCount + item.commentCount + item.shareCount
          + item.clickCount : ℕ) : ℚ) / (item.impressionCount : ℚ) * 100)) ∧
    (∀ c : AdvancedCounts, 0 < c.impression →
      (advancedDerived c).er_pct =
        pyRound2 (((c.reaction + c.comment + c.reshare + c.click_count : ℕ) : ℚ)
          / (c.impression : ℚ) * 100)) := by
  constructor
  · intro item h
    simp only [rowOf, if_pos h]
    congr 1
    push_cast
    ring
  · intro c h
    simp only [advancedDerived, if_pos h]

/-- Closed instantiation of `engagement_rate_formula` at a concrete
statistics row with positive impressions. -/
theorem engagement_rate_formula_witness :
    0 < (⟨"urn:li:share:1", 200, 10, 25, 5, 4⟩ : ShareStats).impressionCount ∧
    (rowOf ⟨"urn:li:share:1", 200, 10, 25, 5, 4⟩).er_pct =
      pyRound2 (((25 + 5 + 4 + 10 : ℕ) : ℚ) / ((200 : ℕ) : ℚ) * 100) ∧
    0 < (⟨100, 12, 3, 2, 8, none⟩ : AdvancedCounts).impression ∧
    (advancedDerived ⟨100, 12, 3, 2, 8, none⟩).er_pct =
      pyRound2 (((12 + 3 + 2 + 8 : ℕ) : ℚ) / ((100 : ℕ) : ℚ) * 100) :=
  ⟨by decide, engagement_rate_formula.1 ⟨"urn:li:share:1", 200, 10, 25, 5, 4⟩ (by decide),
    by decide, engagement_rate_formula.2 ⟨100, 12, 3, 2, 8, none⟩ (by decide)⟩

/-- C9: `get_post_metrics` queries only ids containing `urn:li:share:`,
truncated to at most 20, and returns `none` when the input list is
empty or holds no share-type id. -/
theorem post_metrics_share_filter :
    ∀ (post_ids : List String) (response : List String → Option (List ShareStats)),
      (∀ pid ∈ queriedPostIds post_ids,
        containsSub shareUrnChars pid.data = true ∧ pid ∈ post_ids) ∧
      (queriedPostIds post_ids).length ≤ 20 ∧
      (post_ids = [] → get_post_metrics post_ids response = none) ∧
      ((∀ pid ∈ post_ids, containsSub shareUrnChars pid.data = false) →
        get_post_metrics post_ids response = none) := by
  intro post_ids response
  refine ⟨?_, ?_, ?_, ?_⟩
  · intro pid hpid
    have h1 : pid ∈ validPostIds post_ids := List.mem_of_mem_take hpid
    rw [validPostIds, List.mem_filter] at h1
    exact ⟨h1.2, h1.1⟩
  · exact List.length_take_le 20 _
  · intro h
    subst h
    rfl
  · intro h
    have hval : validPostIds post_ids = [] := by
      rw [validPostIds, List.filter_eq_nil_iff]
      intro pid hpid
      simp [h pid hpid]
    unfold get_post_metrics
    rw [hval]
    by_cases he : post_ids.isEmpty = true
    · rw [if_pos he]
    · rw [if_neg he]
      simp

/-- Closed instantiation of `post_metrics_share_filter`: a list holding
only a ugcPost id yields no query and a `none` result. -/
theorem post_metrics_share_filter_witness :
    ("urn:li:ugcPost:77" ∈ queriedPostIds ["urn:li:ugcPost:77"] →
      containsSub shareUrnChars "urn:li:ugcPost:77".data = true ∧
      "urn:li:ugcPost:77" ∈ ["urn:li:ugcPost:77"]) ∧
    (∀ pid ∈ ["urn:li:ugcPost:77"], containsSub shareUrnChars pid.data = false) ∧
    get_post_metrics ["urn:li:ugcPost:77"] (fun _ => some []) = none :=
  ⟨(post_metrics_share_filter ["urn:li:ugcPost:77"] (fun _ => some [])).1 "urn:li:ugcPost:77",
    by decide,
    (post_metrics_share_filter ["urn:li:ugcPost:77"] (fun _ => some [])).2.2.2 (by decide)⟩

/-- C10: in `LinkedInClient.post` a truthy `video_path` forces a VIDEO
publication that ignores `image_paths`; images alone give an IMAGE
publication with one media entry per image in order; with no media the
payload has category NONE and no `media` key. -/
theorem post_payload_media_selection :
    ∀ (author vis text : String) (isOrg : Bool) (reg : Nat → String)
      (imgs : List String) (vp : Option String),
      (pyTruthyStr vp = true →
        (buildPostPayload author vis isOrg reg text imgs vp).specificContent.shareMediaCategory
            = "VIDEO" ∧
        (buildPostPayload author vis isOrg reg text imgs vp).specificContent.media
            = some [{ status := "READY", media := reg 0 }] ∧
        buildPostPayload author vis isOrg reg text imgs vp
            = buildPostPayload author vis isOrg reg text [] vp) ∧
      (pyTruthyStr vp = false → imgs ≠ [] →
        (buildPostPayload author vis isOrg reg text imgs vp).specificContent.shareMediaCategory
            = "IMAGE" ∧
        (buildPostPayload author vis isOrg reg text imgs vp).specificContent.media
            = some ((List.range imgs.length).map
                (fun i => { status := "READY", media := reg i : MediaEntry }))) ∧
      (pyTruthyStr vp = false → imgs = [] →
        (buildPostPayload author vis isOrg reg text imgs vp).specificContent.shareMediaCategory
            = "NONE" ∧
        (buildPostPayload author vis isOrg reg text imgs vp).specificContent.media = none) := by
  intro author vis text isOrg reg imgs vp
  refine ⟨?_, ?_, ?_⟩
  · intro hv
    refine ⟨?_, ?_, ?_⟩ <;> simp [buildPostPayload, hv]
  · intro hv himgs
    have h1 : imgs.isEmpty = false := by
      simpa [List.isEmpty_iff] using himgs
    constructor <;> simp [buildPostPayload, hv, h1, List.range_eq_nil, himgs]
  · intro hv himgs
    subst himgs
    constructor <;> simp [buildPostPayload, hv]

/-- Closed instantiation of `post_payload_media_selection` at the three
media configurations. -/
theorem post_payload_media_selection_witness :
    pyTruthyStr (some "v.mp4") = true ∧
    (buildPostPayload "urn:li:person:1" "PUBLIC" false (fun k => toString k) "hola"
        ["a.png"] (some "v.mp4")).specificContent.shareMediaCategory = "VIDEO" ∧
    pyTruthyStr (none : Option String) = false ∧
    (buildPostPayload "urn:li:person:1" "PUBLIC" false (fun k => toString k) "hola"
        ["a.png", "b.png"] none).specificContent.media
      = some ((List.range (["a.png", "b.png"] : List String).length).map
          (fun i => { status := "READY", media := toString i : MediaEntry })) ∧
    (buildPostPayload "urn:li:person:1" "PUBLIC" false (fun k => toString k) "hola"
        [] none).specificContent.media = none :=
  ⟨by decide,
    ((post_payload_media_selection "urn:li:person:1" "PUBLIC" "hola" false
      (fun k => toString k) ["a.png"] (some "v.mp4")).1 (by decide)).1,
    by decide,
    ((post_payload_media_selection "urn:li:person:1" "PUBLIC" "hola" false
      (fun k => toString k) ["a.png", "b.png"] none).2.1 (by decide) (by decide)).2,
    ((post_payload_media_selection "urn:li:person:1" "PUBLIC" "hola" false
      (fun k => toString k) [] none).2.2 (by decide) rfl).2⟩

/-! ## Lemmas for the batch partition -/

theorem ceil_div_step (bs : Nat) (hbs : 0 < bs) (L : Nat) (hL : 0 < L) :
    (L + bs - 1) / bs = ((L - bs) + bs - 1) / bs + 1 := by
  have h1 : L + bs - 1 = (L - 1) + bs := by omega
  rw [h1, Nat.add_div_right _ hbs]
  rcases le_or_lt L bs with h | h
  · have h2 : L - bs = 0 := by omega
    rw [h2]
    have h3 : (L - 1) / bs = 0 := Nat.div_eq_of_lt (by omega)
    have h4 : (0 + bs - 1) / bs = 0 := Nat.div_eq_of_lt (by omega)
    omega
  · have h2 : L - bs + bs - 1 = (L - 1 - bs) + bs := by omega
    rw [h2, Nat.add_div_right _ hbs]
    have h3 : L - 1 = (L - 1 - bs) + bs := by omega
    rw [h3, Nat.add_div_right _ hbs]
    have h4 : L - 1 - bs + bs - bs = L - 1 - bs := by omega
    rw [h4]

theorem batchChunks_step (bs : Nat) (hbs : 0 < bs) (l : List String) (hl : l ≠ []) :
    batchChunks l bs = l.take bs :: batchChunks (l.drop bs) bs := by
  unfold batchChunks
  have hL : 0 < l.length := List.length_pos.mpr hl
  rw [List.length_drop, ceil_div_step bs hbs l.length hL, List.range_succ_eq_map]
  rw [List.map_cons, List.map_map]
  congr 1
  · simp
  · apply List.map_congr_left
    intro b _
    simp only [Function.comp]
    rw [List.drop_drop, Nat.succ_mul, Nat.add_comm bs (b * bs)]

theorem batchChunks_flatten (bs : Nat) (hbs : 0 < bs) :
    ∀ l : List String, (batchChunks l bs).flatten = l := by
  suffices h : ∀ (n : Nat) (l : List String), l.length = n → (batchChunks l bs).flatten = l by
    intro l
    exact h l.length l rfl
  intro n
  induction n using Nat.strong_induction_on with
  | _ n ih =>
    intro l hl
    cases l with
    | nil =>
      unfold batchChunks
      have h0 : ((0 : Nat) + bs - 1) / bs = 0 := Nat.div_eq_of_lt (by omega)
      simp [h0]
    | cons x xs =>
      rw [batchChunks_step bs hbs _ (by simp), List.flatten_cons]
      have hlt : ((x :: xs).drop bs).length < n := by
        simp only [List.length_drop, List.length_cons]
        simp only [List.length_cons] at hl
        omega
      rw [ih _ hlt _ rfl, List.take_append_drop]

theorem batchChunks_length (l : List String) (bs : Nat) :
    (batchChunks l bs).length = (l.length + bs - 1) / bs := by
  unfold batchChunks
  simp

theorem batchChunks_le (l : List String) (bs : Nat) :
    ∀ c ∈ batchChunks l bs, c.length ≤ bs := by
  intro c hc
  unfold batchChunks at hc
  rw [List.mem_map] at hc
  obtain ⟨b, _, rfl⟩ := hc
  simp

/-- C3: with a positive batch size, `send_mail_graph_batch` cuts the
recipient list, in order, into `ceil(total / batch_size)` consecutive
slices of at most `batch_size` recipients whose concatenation is the
whole list, so every recipient entry lies in exactly one batch. -/
theorem batch_partition :
    ∀ (receivers : List String) (batch_size : Nat), 0 < batch_size →
      (batchChunks receivers batch_size).length
          = (receivers.length + batch_size - 1) / batch_size ∧
      (∀ c ∈ batchChunks receivers batch_size, c.length ≤ batch_size) ∧
      (batchChunks receivers batch_size).flatten = receivers := by
  intro receivers batch_size hbs
  exact ⟨batchChunks_length receivers batch_size, batchChunks_le receivers batch_size,
    batchChunks_flatten batch_size hbs receivers⟩

/-- Closed instantiation of `batch_partition`: five recipients at batch
size two form three chunks that re-concatenate to the input. -/
theorem batch_partition_witness :
    0 < 2 ∧
    (batchChunks ["a", "b", "c", "d", "e"] 2).length = (5 + 2 - 1) / 2 ∧
    (batchChunks ["a", "b", "c", "d", "e"] 2).flatten = ["a", "b", "c", "d", "e"] :=
  ⟨by decide,
    (batch_partition ["a", "b", "c", "d", "e"] 2 (by decide)).1,
    (batch_partition ["a", "b", "c", "d", "e"] 2 (by decide)).2.2⟩

/-! ## Lemmas for the bulk and batch dispatch loops -/

theorem map_email_const (E : String) :
    ∀ chunk : List String,
      (chunk.map (fun r => ({ email := r, error := E } : FailEntry))).map FailEntry.email
        = chunk := by
  intro chunk
  induction chunk with
  | nil => rfl
  | cons r rest ih => simp_all

theorem bulkLoop_perm (env : Nat → SendOutcome) (delay : ℚ) :
    ∀ (receivers : List String) (idx : Nat),
      List.Perm ((bulkLoop env delay idx receivers).1
        ++ (bulkLoop env delay idx receivers).2.1.map FailEntry.email) receivers := by
  intro receivers
  induction receivers with
  | nil => intro idx; simp [bulkLoop]
  | cons r rest ih =>
    intro idx
    cases henv : env idx with
    | accepted =>
      simp only [bulkLoop, henv, List.cons_append]
      exact (ih (idx + 1)).cons r
    | httpError code body =>
      simp only [bulkLoop, henv, List.map_cons]
      exact List.perm_middle.trans ((ih (idx + 1)).cons r)
    | connError msg =>
      simp only [bulkLoop, henv, List.map_cons]
      exact List.perm_middle.trans ((ih (idx + 1)).cons r)

theorem bulkLoop_trace_cons (env : Nat → SendOutcome) (delay : ℚ) (idx : Nat)
    (r : String) (rest : List String) :
    (bulkLoop env delay idx (r :: rest)).2.2
      = TraceEv.send r ::
          (if rest.isEmpty = true then (bulkLoop env delay (idx + 1) rest).2.2
           else TraceEv.sleep delay :: (bulkLoop env delay (idx + 1) rest).2.2) := by
  cases henv : env idx <;> simp [bulkLoop, henv]

theorem bulkLoop_trace (env : Nat → SendOutcome) (delay : ℚ) :
    ∀ (receivers : List String) (idx : Nat),
      (bulkLoop env delay idx receivers).2.2 = specSequentialTrace delay receivers := by
  intro receivers
  induction receivers with
  | nil => intro idx; simp [bulkLoop, specSequentialTrace]
  | cons r rest ih =>
    intro idx
    rw [bulkLoop_trace_cons]
    cases rest with
    | nil => simp [bulkLoop, specSequentialTrace]
    | cons d rest' =>
      simp only [List.isEmpty_cons, Bool.false_eq_true, if_false]
      rw [ih (idx + 1)]
      rfl

theorem sendTargets_spec (delay : ℚ) :
    ∀ receivers : List String, sendTargets (specSequentialTrace delay receivers) = receivers := by
  intro receivers
  induction receivers with
  | nil => rfl
  | cons r rest ih =>
    cases rest with
    | nil => rfl
    | cons d rest' =>
      simp only [specSequentialTrace, sendTargets, List.filterMap_cons] at ih ⊢
      simpa using ih

theorem bulk_trace_eq (env : Nat → SendOutcome) (ct : List Char)
    (ch : Option (List Char)) (imgs : List Char) (delay : ℚ) :
    ∀ receivers : List String,
      (send_mail_graph_bulk true true env ct ch imgs delay receivers).2
        = specSequentialTrace delay receivers := by
  intro receivers
  unfold send_mail_graph_bulk
  by_cases h1 : receivers.isEmpty = true
  · obtain rfl : receivers = [] := by simpa [List.isEmpty_iff] using h1
    simp [specSequentialTrace]
  · rw [if_neg h1]
    simpa using bulkLoop_trace env delay receivers 1

theorem bulk_outcome (configOk tokenOk : Bool) (env : Nat → SendOutcome)
    (ct : List Char) (ch : Option (List Char)) (imgs : List Char) (delay : ℚ)
    (receivers : List String) :
    (send_mail_graph_bulk configOk tokenOk env ct ch imgs delay receivers).1.total
        = receivers.length ∧
    (send_mail_graph_bulk configOk tokenOk env ct ch imgs delay receivers).1.successful
        = (send_mail_graph_bulk configOk tokenOk env ct ch imgs
            delay receivers).1.successful_emails.length ∧
    (send_mail_graph_bulk configOk tokenOk env ct ch imgs delay receivers).1.failed
        = (send_mail_graph_bulk configOk tokenOk env ct ch imgs
            delay receivers).1.failed_emails.length ∧
    List.Perm
      ((send_mail_graph_bulk configOk tokenOk env ct ch imgs delay receivers).1.successful_emails
        ++ (send_mail_graph_bulk configOk tokenOk env ct ch imgs
              delay receivers).1.failed_emails.map FailEntry.email)
      receivers := by
  unfold send_mail_graph_bulk
  by_cases h1 : receivers.isEmpty = true
  · obtain rfl : receivers = [] := by simpa [List.isEmpty_iff] using h1
    simp
  · rw [if_neg h1]
    cases configOk with
    | false =>
      refine ⟨by simp, by simp, by simp, ?_⟩
      simp only [Bool.not_false, if_pos, List.nil_append]
      rw [map_email_const]
    | true =>
      cases tokenOk with
      | false =>
        refine ⟨by simp, by simp, by simp, ?_⟩
        simp only [Bool.not_true, Bool.not_false, Bool.false_eq_true, if_false, if_pos,
          List.nil_append]
        rw [map_email_const]
      | true =>
        refine ⟨by simp, by simp, by simp, ?_⟩
        simpa using bulkLoop_perm env delay receivers 1

theorem okSplit_perm (responses : Nat → Nat × Option String) :
    ∀ (chunk : List String) (i : Nat),
      List.Perm ((okSplit responses i chunk).1
        ++ (okSplit responses i chunk).2.map FailEntry.email) chunk := by
  intro chunk
  induction chunk with
  | nil => intro i; simp [okSplit]
  | cons r rest ih =>
    intro i
    by_cases hst : (responses i).1 = 202
    · simp only [okSplit, hst, if_pos, List.cons_append]
      exact (ih (i + 1)).cons r
    · simp only [okSplit, hst, if_false, List.map_cons]
      exact List.perm_middle.trans ((ih (i + 1)).cons r)

theorem perBatch_perm (out : BatchOutcome) (startIdx : Nat) (chunk : List String) :
    List.Perm ((perBatch out startIdx chunk).1
      ++ (perBatch out startIdx chunk).2.map FailEntry.email) chunk := by
  cases out with
  | ok responses => exact okSplit_perm responses chunk startIdx
  | httpError code body =>
    simp only [perBatch, List.nil_append]
    rw [map_email_const]
  | connError msg =>
    simp only [perBatch, List.nil_append]
    rw [map_email_const]

theorem forall₂_map_pair {α β γ : Type} (R : β → γ → Prop) (f : α → β) (g : α → γ)
    (h : ∀ a, R (f a) (g a)) : ∀ l : List α, List.Forall₂ R (l.map f) (l.map g) := by
  intro l
  induction l with
  | nil => constructor
  | cons a rest ih =>
    simp only [List.map_cons]
    exact List.Forall₂.cons (h a) ih

theorem perm_flatten_forall₂ :
    ∀ (ps : List (List String × List FailEntry)) (cs : List (List String)),
      List.Forall₂ (fun p c => List.Perm (p.1 ++ p.2.map FailEntry.email) c) ps cs →
      List.Perm ((ps.map Prod.fst).flatten
        ++ ((ps.map Prod.snd).flatten).map FailEntry.email) cs.flatten := by
  intro ps cs h
  induction h with
  | nil => simp
  | @cons p c ps' cs' hpc htail ih =>
    simp only [List.map_cons, List.flatten_cons, List.map_append]
    have hperm : List.Perm
        ((p.1 ++ (ps'.map Prod.fst).flatten)
          ++ (p.2.map FailEntry.email ++ ((ps'.map Prod.snd).flatten).map FailEntry.email))
        ((p.1 ++ p.2.map FailEntry.email)
          ++ ((ps'.map Prod.fst).flatten
            ++ ((ps'.map Prod.snd).flatten).map FailEntry.email)) := by
      have e1 : (p.1 ++ (ps'.map Prod.fst).flatten)
          ++ (p.2.map FailEntry.email ++ ((ps'.map Prod.snd).flatten).map FailEntry.email)
          = p.1 ++ (((ps'.map Prod.fst).flatten ++ p.2.map FailEntry.email)
              ++ ((ps'.map Prod.snd).flatten).map FailEntry.email) := by
        simp [List.append_assoc]
      have e2 : (p.1 ++ p.2.map FailEntry.email)
          ++ ((ps'.map Prod.fst).flatten
            ++ ((ps'.map Prod.snd).flatten).map FailEntry.email)
          = p.1 ++ ((p.2.map FailEntry.email ++ (ps'.map Prod.fst).flatten)
              ++ ((ps'.map Prod.snd).flatten).map FailEntry.email) := by
        simp [List.append_assoc]
      rw [e1, e2]
      exact List.Perm.append_left p.1
        (List.Perm.append_right _ List.perm_append_comm)
    exact hperm.trans (List.Perm.append hpc ih)

theorem batch_outcome (configOk tokenOk : Bool) (benv : Nat → BatchOutcome)
    (ct : List Char) (ch : Option (List Char)) (imgs : List Char) (batch_size : Nat)
    (receivers : List String) (hbs : 0 < batch_size) :
    (send_mail_graph_batch configOk tokenOk benv ct ch imgs batch_size receivers).total
        = receivers.length ∧
    (send_mail_graph_batch configOk tokenOk benv ct ch imgs batch_size receivers).successful
        = (send_mail_graph_batch configOk tokenOk benv ct ch imgs
            batch_size receivers).successful_emails.length ∧
    (send_mail_graph_batch configOk tokenOk benv ct ch imgs batch_size receivers).failed
        = (send_mail_graph_batch configOk tokenOk benv ct ch imgs
            batch_size receivers).failed_emails.length ∧
    List.Perm
      ((send_mail_graph_batch configOk tokenOk benv ct ch imgs
          batch_size receivers).successful_emails
        ++ (send_mail_graph_batch configOk tokenOk benv ct ch imgs
              batch_size receivers).failed_emails.map FailEntry.email)
      receivers := by
  unfold send_mail_graph_batch
  by_cases h1 : receivers.isEmpty = true
  · obtain rfl : receivers = [] := by simpa [List.isEmpty_iff] using h1
    simp
  · rw [if_neg h1]
    cases configOk with
    | false =>
      refine ⟨by simp, by simp, by simp, ?_⟩
      simp only [Bool.not_false, if_pos, List.nil_append]
      rw [map_email_const]
    | true =>
      cases tokenOk with
      | false =>
        refine ⟨by simp, by simp, by simp, ?_⟩
        simp only [Bool.not_true, Bool.not_false, Bool.false_eq_true, if_false, if_pos,
          List.nil_append]
        rw [map_email_const]
      | true =>
        refine ⟨by simp, by simp, by simp, ?_⟩
        have hforall := forall₂_map_pair
          (fun (p : List String × List FailEntry) (c : List String) =>
            List.Perm (p.1 ++ p.2.map FailEntry.email) c)
          (fun b => perBatch (benv b) (b * batch_size)
            ((receivers.drop (b * batch_size)).take batch_size))
          (fun b => (receivers.drop (b * batch_size)).take batch_size)
          (fun b => perBatch_perm (benv b) (b * batch_size) _)
          (List.range ((receivers.length + batch_size - 1) / batch_size))
        have hperm := perm_flatten_forall₂ _ _ hforall
        have hflat : ((List.range ((receivers.length + batch_size - 1) / batch_size)).map
            (fun b => (receivers.drop (b * batch_size)).take batch_size)).flatten
            = receivers := batchChunks_flatten batch_size hbs receivers
        rw [hflat] at hperm
        simpa using hperm

/-- C1: for every recipient list, `send_mail_graph_bulk` and
`send_mail_graph_batch` (with a positive batch size, as the code divides
by it) return a result whose `total` is the number of recipients and
whose per-recipient outcomes partition the list: the successful emails
together with the failed entries' emails are a permutation of the
recipient list - every entry gets exactly one outcome - and
`successful + failed = total`. -/
theorem bulk_batch_outcome_partition :
    ∀ (configOk tokenOk : Bool) (env : Nat → SendOutcome) (benv : Nat → BatchOutcome)
      (content_text : List Char) (content_html : Option (List Char)) (img_tags : List Char)
      (delay : ℚ) (batch_size : Nat) (receivers : List String),
      0 < batch_size →
      ((send_mail_graph_bulk configOk tokenOk env content_text content_html img_tags
          delay receivers).1.total = receivers.length ∧
        (send_mail_graph_bulk configOk tokenOk env content_text content_html img_tags
            delay receivers).1.successful
          + (send_mail_graph_bulk configOk tokenOk env content_text content_html img_tags
              delay receivers).1.failed
          = (send_mail_graph_bulk configOk tokenOk env content_text content_html img_tags
              delay receivers).1.total ∧
        List.Perm
          ((send_mail_graph_bulk configOk tokenOk env content_text content_html img_tags
              delay receivers).1.successful_emails
            ++ (send_mail_graph_bulk configOk tokenOk env content_text content_html img_tags
                delay receivers).1.failed_emails.map FailEntry.email)
          receivers) ∧
      ((send_mail_graph_batch configOk tokenOk benv content_text content_html img_tags
          batch_size receivers).total = receivers.length ∧
        (send_mail_graph_batch configOk tokenOk benv content_text content_html img_tags
            batch_size receivers).successful
          + (send_mail_graph_batch configOk tokenOk benv content_text content_html img_tags
              batch_size receivers).failed
          = (send_mail_graph_batch configOk tokenOk benv content_text content_html img_tags
              batch_size receivers).total ∧
        List.Perm
          ((send_mail_graph_batch configOk tokenOk benv content_text content_html img_tags
              batch_size receivers).successful_emails
            ++ (send_mail_graph_batch configOk tokenOk benv content_text content_html img_tags
                batch_size receivers).failed_emails.map FailEntry.email)
          receivers) := by
  intro configOk tokenOk env benv ct ch imgs delay bs receivers hbs
  obtain ⟨hbt, hbs1, hbf1, hbp⟩ := bulk_outcome configOk tokenOk env ct ch imgs delay receivers
  obtain ⟨hBt, hBs1, hBf1, hBp⟩ := batch_outcome configOk tokenOk benv ct ch imgs bs receivers hbs
  have hblen := hbp.length_eq
  have hBlen := hBp.length_eq
  simp only [List.length_append, List.length_map] at hblen hBlen
  exact ⟨⟨hbt, by omega, hbp⟩, ⟨hBt, by omega, hBp⟩⟩

/-- Closed instantiation of `bulk_batch_outcome_partition`: two
recipients, the first accepted and the second rejected, yield one
success and one failure in both dispatch modes. -/
theorem bulk_batch_outcome_partition_witness :
    0 < 20 ∧
    ((send_mail_graph_bulk true true
        (fun idx => if idx = 1 then .accepted else .httpError 500 "err")
        [] none [] 2 ["a@x.com", "b@x.com"]).1.successful
      + (send_mail_graph_bulk true true
          (fun idx => if idx = 1 then .accepted else .httpError 500 "err")
          [] none [] 2 ["a@x.com", "b@x.com"]).1.failed
      = (send_mail_graph_bulk true true
          (fun idx => if idx = 1 then .accepted else .httpError 500 "err")
          [] none [] 2 ["a@x.com", "b@x.com"]).1.total) ∧
    (send_mail_graph_batch true true (fun _ => .ok (fun i => (if i = 0 then 202 else 500, none)))
        [] none [] 20 ["a@x.com", "b@x.com"]).total = 2 :=
  ⟨by decide,
    ((bulk_batch_outcome_partition true true
      (fun idx => if idx = 1 then .accepted else .httpError 500 "err")
      (fun _ => .ok (fun i => (if i = 0 then 202 else 500, none)))
      [] none [] 2 20 ["a@x.com", "b@x.com"] (by decide)).1).2.1,
    ((bulk_batch_outcome_partition true true
      (fun idx => if idx = 1 then .accepted else .httpError 500 "err")
      (fun _ => .ok (fun i => (if i = 0 then 202 else 500, none)))
      [] none [] 2 20 ["a@x.com", "b@x.com"] (by decide)).2).1⟩

/-- C5: in `send_mail_graph_bulk` each entry of the recipient list is
the target of exactly one `sendMail` request - the send targets of the
dispatch trace are the recipient list itself - so for a duplicate-free
list every recipient is sent to at most once, and a failed recipient is
recorded in `failed_emails` without any further send. -/
theorem bulk_no_retry :
    ∀ (env : Nat → SendOutcome) (content_text : List Char)
      (content_html : Option (List Char)) (img_tags : List Char) (delay : ℚ)
      (receivers : List String),
      sendTargets (send_mail_graph_bulk true true env content_text content_html img_tags
          delay receivers).2 = receivers ∧
      (receivers.Nodup → ∀ e : String,
        (sendTargets (send_mail_graph_bulk true true env content_text content_html img_tags
            delay receivers).2).count e ≤ 1) ∧
      (∀ f ∈ (send_mail_graph_bulk true true env content_text content_html img_tags
          delay receivers).1.failed_emails, f.email ∈ receivers) := by
  intro env ct ch imgs delay receivers
  have htr : sendTargets (send_mail_graph_bulk true true env ct ch imgs
      delay receivers).2 = receivers := by
    rw [bulk_trace_eq, sendTargets_spec]
  refine ⟨htr, ?_, ?_⟩
  · intro hnd e
    rw [htr]
    exact List.nodup_iff_count_le_one.mp hnd e
  · intro f hf
    have hperm := (bulk_outcome true true env ct ch imgs delay receivers).2.2.2
    apply hperm.mem_iff.mp
    exact List.mem_append_right _ (List.mem_map_of_mem FailEntry.email hf)

/-- Closed instantiation of `bulk_no_retry` at a duplicate-free
two-recipient list whose second send fails. -/
theorem bulk_no_retry_witness :
    (["a@x.com", "b@x.com"] : List String).Nodup ∧
    sendTargets (send_mail_graph_bulk true true
        (fun idx => if idx = 1 then .accepted else .connError "down")
        [] none [] 2 ["a@x.com", "b@x.com"]).2 = ["a@x.com", "b@x.com"] ∧
    (sendTargets (send_mail_graph_bulk true true
        (fun idx => if idx = 1 then .accepted else .connError "down")
        [] none [] 2 ["a@x.com", "b@x.com"]).2).count "b@x.com" ≤ 1 :=
  ⟨by decide,
    (bulk_no_retry (fun idx => if idx = 1 then .accepted else .connError "down")
      [] none [] 2 ["a@x.com", "b@x.com"]).1,
    (bulk_no_retry (fun idx => if idx = 1 then .accepted else .connError "down")
      [] none [] 2 ["a@x.com", "b@x.com"]).2.1 (by decide) "b@x.com"⟩

/-- C7: `send_mail_graph_bulk` dispatches strictly sequentially in
recipient-list order: its observable trace is exactly one send per
recipient, in order, with a `delay_between_emails`-second sleep after
every send except the last, and nothing else. -/
theorem bulk_sequential_trace :
    ∀ (env : Nat → SendOutcome) (content_text : List Char)
      (content_html : Option (List Char)) (img_tags : List Char) (delay : ℚ)
      (receivers : List String),
      (send_mail_graph_bulk true true env content_text content_html img_tags
          delay receivers).2 = specSequentialTrace delay receivers := by
  intro env ct ch imgs delay receivers
  exact bulk_trace_eq env ct ch imgs delay receivers

/-! ## Lemmas for the analytics reconciliation loops -/

theorem liLoop_committed (rows : List MetricRow) (queryOk : Nat → Bool) :
    ∀ (posts : List PostData) (idx : Nat) (s : PySession LinkedInMetric),
      (match liLoop rows queryOk idx s posts with
        | .error sErr => sErr.committed
        | .ok (s', _) => s'.committed) = s.committed := by
  intro posts
  induction posts with
  | nil => intro idx s; rfl
  | cons p rest ih =>
    intro idx s
    cases hfind : rows.find? (fun r => r.post_id == p.post_id) with
    | none =>
      simp only [liLoop, hfind]
      exact ih (idx + 1) s
    | some row =>
      by_cases hq : queryOk idx = true
      · simp only [liLoop, hfind, hq, if_pos]
        have h := ih (idx + 1) (s.add (metricOf p row))
        cases hrec : liLoop rows queryOk (idx + 1) (s.add (metricOf p row)) rest with
        | error sErr =>
          rw [hrec] at h
          simpa using h
        | ok pr =>
          obtain ⟨s', n⟩ := pr
          rw [hrec] at h
          simpa using h
      · simp only [liLoop, hfind]
        rw [if_neg hq]

theorem fgLoop_committed :
    ∀ (rows : List GrowthRow) (s : PySession FollowerMetric),
      (match fgLoop s rows with
        | .error sErr => sErr.committed
        | .ok (s', _) => s'.committed) = s.committed := by
  intro rows
  induction rows with
  | nil => intro s; rfl
  | cons row rest ih =>
    intro s
    cases ho : row.ganancia_organica with
    | none => simp [fgLoop, ho]
    | some o =>
      cases hp : row.ganancia_pagada with
      | none => simp [fgLoop, ho, hp]
      | some p =>
        cases ht : row.ganancia_total with
        | none => simp [fgLoop, ho, hp, ht]
        | some t =>
          simp only [fgLoop, ho, hp, ht]
          have hc2 : ∀ s2 : PySession FollowerMetric,
              s2 = (if (s.working ++ s.added).any (fun r => r.date == row.fecha)
                then updateByDate row.fecha o p t s
                else s.add ⟨row.fecha, o, p, t⟩) →
              s2.committed = s.committed := by
            intro s2 hs2
            by_cases hex : (s.working ++ s.added).any (fun r => r.date == row.fecha) = true
            · rw [hs2, if_pos hex]; rfl
            · rw [hs2, if_neg hex]; rfl
          set s2 := if (s.working ++ s.added).any (fun r => r.date == row.fecha)
            then updateByDate row.fecha o p t s
            else s.add ⟨row.fecha, o, p, t⟩
          have h := ih s2
          have hcc := hc2 s2 rfl
          cases hrec : fgLoop s2 rest with
          | error sErr =>
            rw [hrec] at h
            simp only [hrec]
            simp at h
            exact h.trans hcc
          | ok pr =>
            obtain ⟨s', n⟩ := pr
            rw [hrec] at h
            simp only [hrec]
            simp at h
            exact h.trans hcc

theorem rollback_of_clean {μ : Type} (s t : PySession μ) (hw : s.working = s.committed)
    (ha : s.added = []) (hc : t.committed = s.committed) : t.rollback = s := by
  obtain ⟨c, w, a⟩ := s
  simp only at hw ha hc
  subst hw
  subst ha
  simp [PySession.rollback, hc]

/-- C6: when `collect_linkedin_metrics` or `collect_follower_growth`
hits an error while reconciling metrics, it rolls the session back and
returns 0; starting from a session with no pending changes, the final
session - in particular its committed rows - is exactly the initial
one. -/
theorem analytics_rollback_on_error :
    ∀ (posts : List PostData) (df : Option (List MetricRow)) (queryOk : Nat → Bool)
      (commitOk : Bool) (s₁ : PySession LinkedInMetric)
      (df₂ : Option (List GrowthRow)) (commitOk₂ : Bool) (s₂ : PySession FollowerMetric),
      s₁.clean → s₂.clean →
      (liErrored posts df queryOk commitOk s₁ = true →
        collect_linkedin_metrics posts df queryOk commitOk s₁ = (0, s₁)) ∧
      (fgErrored df₂ commitOk₂ s₂ = true →
        collect_follower_growth df₂ commitOk₂ s₂ = (0, s₂)) := by
  intro posts df queryOk commitOk s₁ df₂ commitOk₂ s₂ h1 h2
  constructor
  · intro herr
    unfold liErrored at herr
    unfold collect_linkedin_metrics
    by_cases hp : posts.isEmpty = true
    · rw [if_pos hp] at herr
      cases herr
    · rw [if_neg hp] at herr ⊢
      cases df with
      | none => cases herr
      | some rows =>
        simp only at herr ⊢
        by_cases hr : rows.isEmpty = true
        · rw [if_pos hr] at herr
          cases herr
        · rw [if_neg hr] at herr ⊢
          have hcom := liLoop_committed rows queryOk posts 1 s₁
          cases hrec : liLoop rows queryOk 1 s₁ posts with
          | error sErr =>
            rw [hrec] at hcom
            simp at hcom
            simp only [hrec]
            rw [rollback_of_clean s₁ sErr h1.1 h1.2 hcom]
          | ok pr =>
            obtain ⟨s', n⟩ := pr
            rw [hrec] at hcom herr
            simp at hcom
            simp at herr
            simp only [hrec, herr, Bool.false_eq_true, if_false]
            rw [rollback_of_clean s₁ s' h1.1 h1.2 hcom]
  · intro herr
    unfold fgErrored at herr
    unfold collect_follower_growth
    cases df₂ with
    | none => cases herr
    | some rows =>
      simp only at herr ⊢
      by_cases hr : rows.isEmpty = true
      · rw [if_pos hr] at herr
        cases herr
      · rw [if_neg hr] at herr ⊢
        have hcom := fgLoop_committed rows s₂
        cases hrec : fgLoop s₂ rows with
        | error sErr =>
          rw [hrec] at hcom
          simp at hcom
          simp only [hrec]
          rw [rollback_of_clean s₂ sErr h2.1 h2.2 hcom]
        | ok pr =>
          obtain ⟨s', n⟩ := pr
          rw [hrec] at hcom herr
          simp at hcom
          simp at herr
          simp only [hrec, herr, Bool.false_eq_true, if_false]
          rw [rollback_of_clean s₂ s' h2.1 h2.2 hcom]

/-- Closed instantiation of `analytics_rollback_on_error`: a clean
session, a failing `session.query` in the LinkedIn loop and an
unconvertible follower row both roll back to the initial session with
result 0. -/
theorem analytics_rollback_on_error_witness :
    (⟨[], [], []⟩ : PySession LinkedInMetric).clean ∧
    (⟨[], [], []⟩ : PySession FollowerMetric).clean ∧
    liErrored [⟨"urn:li:share:9", "texto", "Imagen"⟩]
      (some [⟨"urn:li:share:9", 10, 1, 2, 3, 4, (5 : ℚ)⟩]) (fun _ => false) true
      ⟨[], [], []⟩ = true ∧
    collect_linkedin_metrics [⟨"urn:li:share:9", "texto", "Imagen"⟩]
      (some [⟨"urn:li:share:9", 10, 1, 2, 3, 4, (5 : ℚ)⟩]) (fun _ => false) true
      ⟨[], [], []⟩ = (0, ⟨[], [], []⟩) ∧
    fgErrored (some [⟨0, none, none, none⟩]) true ⟨[], [], []⟩ = true ∧
    collect_follower_growth (some [⟨0, none, none, none⟩]) true ⟨[], [], []⟩
      = (0, ⟨[], [], []⟩) :=
  ⟨⟨rfl, rfl⟩, ⟨rfl, rfl⟩, by decide,
    (analytics_rollback_on_error [⟨"urn:li:share:9", "texto", "Imagen"⟩]
      (some [⟨"urn:li:share:9", 10, 1, 2, 3, 4, (5 : ℚ)⟩]) (fun _ => false) true
      ⟨[], [], []⟩ (some [⟨0, none, none, none⟩]) true ⟨[], [], []⟩
      ⟨rfl, rfl⟩ ⟨rfl, rfl⟩).1 (by decide),
    by decide,
    (analytics_rollback_on_error [⟨"urn:li:share:9", "texto", "Imagen"⟩]
      (some [⟨"urn:li:share:9", 10, 1, 2, 3, 4, (5 : ℚ)⟩]) (fun _ => false) true
      ⟨[], [], []⟩ (some [⟨0, none, none, none⟩]) true ⟨[], [], []⟩
      ⟨rfl, rfl⟩ ⟨rfl, rfl⟩).2 (by decide)⟩

/-! ## Lemmas for `clean_and_split_emails` -/

theorem dedupeFirst_mem :
    ∀ (l seen : List (List Char)) (e : List Char),
      e ∈ dedupeFirst seen l ↔ e ∈ l ∧ e ∉ seen := by
  intro l
  induction l with
  | nil => intro seen e; simp [dedupeFirst]
  | cons x rest ih =>
    intro seen e
    by_cases hx : x ∈ seen
    · rw [dedupeFirst, if_pos hx, ih seen e]
      constructor
      · rintro ⟨he, hns⟩
        exact ⟨List.mem_cons_of_mem x he, hns⟩
      · rintro ⟨he, hns⟩
        rcases List.mem_cons.mp he with rfl | he2
        · exact absurd hx hns
        · exact ⟨he2, hns⟩
    · rw [dedupeFirst, if_neg hx]
      constructor
      · intro hmem
        rcases List.mem_cons.mp hmem with rfl | h2
        · exact ⟨List.mem_cons_self _ _, hx⟩
        · have h3 := (ih (x :: seen) e).mp h2
          exact ⟨List.mem_cons_of_mem x h3.1, fun hs => h3.2 (List.mem_cons_of_mem x hs)⟩
      · rintro ⟨he, hns⟩
        rcases List.mem_cons.mp he with rfl | he2
        · exact List.mem_cons_self _ _
        · by_cases hex : e = x
          · subst hex; exact List.mem_cons_self _ _
          · refine List.mem_cons_of_mem x ((ih (x :: seen) e).mpr ⟨he2, ?_⟩)
            simp [List.mem_cons, hex, hns]

theorem dedupeFirst_nodup :
    ∀ (l seen : List (List Char)), (dedupeFirst seen l).Nodup := by
  intro l
  induction l with
  | nil => intro seen; simp [dedupeFirst]
  | cons x rest ih =>
    intro seen
    by_cases hx : x ∈ seen
    · rw [dedupeFirst, if_pos hx]
      exact ih seen
    · rw [dedupeFirst, if_neg hx]
      refine List.Nodup.cons ?_ (ih (x :: seen))
      intro hmem
      have h1 := (dedupeFirst_mem rest (x :: seen) x).mp hmem
      exact h1.2 (List.mem_cons_self _ _)

theorem idxOf_cons_self (y : List Char) (l : List (List Char)) :
    (y :: l).indexOf y = 0 := by
  simp [List.indexOf, List.findIdx_cons]

theorem idxOf_cons_of_ne {a x : List Char} (l : List (List Char)) (h : a ≠ x) :
    (x :: l).indexOf a = l.indexOf a + 1 := by
  have hx : (x == a) = false := beq_eq_false_iff_ne.mpr (Ne.symm h)
  simp [List.indexOf, List.findIdx_cons, hx]

theorem dedupeFirst_pairwise :
    ∀ (l seen : List (List Char)),
      (dedupeFirst seen l).Pairwise (fun a b => l.indexOf a < l.indexOf b) := by
  intro l
  induction l with
  | nil => intro seen; simp [dedupeFirst]
  | cons x rest ih =>
    intro seen
    have hstep : ∀ seen' : List (List Char),
        (∀ e ∈ dedupeFirst seen' rest, e ≠ x) →
        (dedupeFirst seen' rest).Pairwise
          (fun a b => (x :: rest).indexOf a < (x :: rest).indexOf b) := by
      intro seen' hne
      refine List.Pairwise.imp_of_mem ?_ (ih seen')
      intro a b ha hb hab
      rw [idxOf_cons_of_ne rest (hne a ha), idxOf_cons_of_ne rest (hne b hb)]
      exact Nat.succ_lt_succ hab
    by_cases hx : x ∈ seen
    · rw [dedupeFirst, if_pos hx]
      apply hstep seen
      intro e he
      have h1 := (dedupeFirst_mem rest seen e).mp he
      exact fun hex => h1.2 (hex ▸ hx)
    · rw [dedupeFirst, if_neg hx]
      refine List.Pairwise.cons ?_ (hstep (x :: seen) ?_)
      · intro b hb
        have hmem := (dedupeFirst_mem rest (x :: seen) b).mp hb
        have hbx : b ≠ x := fun h => hmem.2 (h ▸ List.mem_cons_self x seen)
        rw [idxOf_cons_self, idxOf_cons_of_ne rest hbx]
        exact Nat.succ_pos _
      · intro e he
        have hmem := (dedupeFirst_mem rest (x :: seen) e).mp he
        exact fun h => hmem.2 (h ▸ List.mem_cons_self x seen)

theorem pyStripSet_subset (set l : List Char) : ∀ c ∈ pyStripSet set l, c ∈ l := by
  intro c hc
  unfold pyStripSet at hc
  rw [List.mem_reverse] at hc
  have h1 := (List.dropWhile_sublist _).subset hc
  rw [List.mem_reverse] at h1
  exact (List.dropWhile_sublist _).subset h1

theorem map_id_of_forall {f : Char → Char} :
    ∀ l : List Char, (∀ c ∈ l, f c = c) → l.map f = l := by
  intro l h
  induction l with
  | nil => rfl
  | cons c rest ih => simp_all

theorem normalizeEmail_lower (x : List Char) :
    mapLower (normalizeEmail x) = normalizeEmail x := by
  unfold normalizeEmail mapLower pyStrip
  apply map_id_of_forall
  intro c hc
  have h1 := pyStripSet_subset pyWsChars _ c hc
  rw [List.mem_map] at h1
  obtain ⟨c₀, _, rfl⟩ := h1
  exact lowerChar_idem c₀

theorem pyStrip_nil_of_ws (l : List Char) (h : ∀ c ∈ l, c ∈ pyWsChars) :
    pyStrip l = [] := by
  unfold pyStrip pyStripSet
  have h1 : List.dropWhile (fun c => decide (c ∈ pyWsChars)) l = [] := by
    rw [List.dropWhile_eq_nil_iff]
    intro x hx
    simpa using h x hx
  rw [h1]
  rfl

theorem removeInvisible_ws (s : List Char) (h : ∀ c ∈ s, c ∈ invisibleOrWsChars) :
    ∀ c ∈ removeInvisible s, c ∈ pyWsChars := by
  intro c hc
  unfold removeInvisible at hc
  rw [List.mem_filter] at hc
  obtain ⟨hc1, hzw⟩ := hc
  rw [List.mem_map] at hc1
  obtain ⟨a, ha, rfl⟩ := hc1
  rw [List.mem_filter] at ha
  obtain ⟨has, hbom⟩ := ha
  have hmem := h a has
  simp only [invisibleOrWsChars, List.mem_cons] at hmem
  simp only [decide_eq_true_eq] at hbom hzw
  rcases hmem with h1 | h1 | h1 | h1
  · exact absurd h1 hbom
  · subst h1
    decide
  · subst h1
    rw [if_neg (by decide)] at hzw
    exact absurd rfl hzw
  · have hne : a ≠ '\u00A0' := by
      intro he
      rw [he] at h1
      exact absurd h1 (by decide)
    rw [if_neg hne]
    exact h1

/-- C8: `clean_and_split_emails` returns a duplicate-free list holding
the cleaned candidates in first-occurrence order, every element
lower-case (a fixed point of `mapLower`, which lowers the ASCII and
Latin-1 letters — every cased character the repository's validator
admits) and containing `@`; a non-string, empty, or
whitespace/invisible-character-only input yields `[]`. -/
theorem clean_emails_properties :
    clean_and_split_emails .nonstr = [] ∧
    clean_and_split_emails (.str []) = [] ∧
    ∀ s : List Char,
      (clean_and_split_emails (.str s)).Nodup ∧
      (∀ e, e ∈ clean_and_split_emails (.str s) ↔
        e ∈ cleanedEmails (pyStrip (removeInvisible s))) ∧
      (clean_and_split_emails (.str s)).Pairwise
        (fun a b => (cleanedEmails (pyStrip (removeInvisible s))).indexOf a
          < (cleanedEmails (pyStrip (removeInvisible s))).indexOf b) ∧
      (∀ e ∈ clean_and_split_emails (.str s),
        e.contains '@' = true ∧ mapLower e = e) ∧
      ((∀ c ∈ s, c ∈ invisibleOrWsChars) → clean_and_split_emails (.str s) = []) := by
  refine ⟨rfl, rfl, ?_⟩
  intro s
  by_cases hse : s.isEmpty = true
  · obtain rfl : s = [] := by simpa [List.isEmpty_iff] using hse
    have hr0 : clean_and_split_emails (.str []) = [] := rfl
    have hc0 : cleanedEmails (pyStrip (removeInvisible [])) = [] := rfl
    refine ⟨?_, ?_, ?_, ?_, ?_⟩ <;> simp [hr0, hc0]
  · have hr : clean_and_split_emails (.str s)
        = (if (pyStrip (removeInvisible s)).isEmpty = true then []
           else dedupeFirst [] (cleanedEmails (pyStrip (removeInvisible s)))) := by
      simp only [clean_and_split_emails]
      rw [if_neg hse]
    by_cases hcl : (pyStrip (removeInvisible s)).isEmpty = true
    · rw [if_pos hcl] at hr
      have hc0 : cleanedEmails (pyStrip (removeInvisible s)) = [] := by
        obtain he : pyStrip (removeInvisible s) = [] := by
          simpa [List.isEmpty_iff] using hcl
        rw [he]
        rfl
      refine ⟨?_, ?_, ?_, ?_, ?_⟩ <;> simp [hr, hc0]
    · rw [if_neg hcl] at hr
      refine ⟨?_, ?_, ?_, ?_, ?_⟩
      · rw [hr]
        exact dedupeFirst_nodup _ []
      · intro e
        rw [hr, dedupeFirst_mem]
        simp
      · rw [hr]
        exact dedupeFirst_pairwise _ []
      · intro e he
        rw [hr, dedupeFirst_mem] at he
        have hecl := he.1
        unfold cleanedEmails at hecl
        rw [List.mem_filter] at hecl
        obtain ⟨hmap, hprop⟩ := hecl
        rw [List.mem_map] at hmap
        obtain ⟨x, _, rfl⟩ := hmap
        have hp2 := (Bool.and_eq_true _ _).mp hprop
        exact ⟨hp2.2, normalizeEmail_lower x⟩
      · intro hws
        have hstrip : pyStrip (removeInvisible s) = [] :=
          pyStrip_nil_of_ws _ (removeInvisible_ws s hws)
        rw [hstrip] at hcl
        exact absurd rfl hcl

/-- Closed instantiation of `clean_emails_properties`: a mixed-case,
duplicated, multi-separator input; an accented input `Ñ@X.com` that
lowers to `ñ@x.com` and deduplicates against it; and a whitespace-only
input. -/
theorem clean_emails_properties_witness :
    (clean_and_split_emails (.str ("A@X.com; a@x.com,b@y.com".data))).Nodup ∧
    "a@x.com".data ∈ clean_and_split_emails (.str ("A@X.com; a@x.com,b@y.com".data)) ∧
    ("a@x.com".data.contains '@' = true ∧
      mapLower ("a@x.com".data) = "a@x.com".data) ∧
    clean_and_split_emails (.str ("Ñ@X.com; ñ@x.com".data)) = ["ñ@x.com".data] ∧
    ("ñ@x.com".data.contains '@' = true ∧
      mapLower ("ñ@x.com".data) = "ñ@x.com".data) ∧
    (∀ c ∈ " \t ".data, c ∈ invisibleOrWsChars) ∧
    clean_and_split_emails (.str (" \t ".data)) = [] :=
  ⟨(clean_emails_properties.2.2 ("A@X.com; a@x.com,b@y.com".data)).1,
    by decide,
    (clean_emails_properties.2.2 ("A@X.com; a@x.com,b@y.com".data)).2.2.2.1
      "a@x.com".data (by decide),
    by decide,
    (clean_emails_properties.2.2 ("Ñ@X.com; ñ@x.com".data)).2.2.2.1
      "ñ@x.com".data (by decide),
    by decide,
    (clean_emails_properties.2.2 (" \t ".data)).2.2.2.2 (by decide)⟩

end PublicadorRRSS
